import Mathlib

set_option maxHeartbeats 1000000

/-!
Verification of the multi-agent conversation core of the mybestself
repository.  JavaScript strings are modelled as lists of characters; the
line-oriented regular expressions used by the agents are modelled by
bespoke deterministic matchers that follow the greedy/backtracking
semantics of the concrete patterns appearing in the source
(`KEYWORD:\s*[^|]+\|[^\n]+\n?` and friends).  Stateful services
(PersonaService, AuthAwarePersonaService, ChatService, ConversationManager)
are modelled as explicit state-passing functions; network and clock
effects are parameters (a Bool for each fetch outcome, a Nat for Date.now).
-/

abbrev Str := List Char

/-- Character class of the JavaScript regex `\s`, which is also the set of
characters removed by `String.prototype.trim`: ASCII whitespace plus the
Unicode space separators, line separators and the BOM. -/
def isWsChar (c : Char) : Bool :=
  c == ' ' || c == '\t' || c == '\n' || c == '\r' || c == '\x0b' ||
  c == '\x0c' || c.val == 0xA0 || c.val == 0x1680 ||
  (0x2000 ≤ c.val && c.val ≤ 0x200A) || c.val == 0x2028 || c.val == 0x2029 ||
  c.val == 0x202F || c.val == 0x205F || c.val == 0x3000 || c.val == 0xFEFF

/-- Model of `String.prototype.trim`: drop `\s` characters from both ends. -/
def jsTrim (s : Str) : Str :=
  ((s.dropWhile isWsChar).reverse.dropWhile isWsChar).reverse

/-- Model of `String.prototype.toLowerCase` (exact on the ASCII range, which
covers every keyword and grammar marker of this code base). -/
def lcStr (s : Str) : Str := s.map Char.toLower

/-- Model of `String.prototype.includes`. -/
def includesSub : Str → Str → Bool
  | [], needle => needle.isEmpty
  | c :: cs, needle => needle.isPrefixOf (c :: cs) || includesSub cs needle

/-- Strip the literal keyword `kw` from the head of `cs`, comparing
case-insensitively; returns the remainder on success.  Models the literal
part of a `gi`-flagged regex. -/
def icaseStrip : Str → Str → Option Str
  | [], cs => some cs
  | _ :: _, [] => none
  | k :: ks, c :: cs => if k.toLower = c.toLower then icaseStrip ks cs else none

/-- The two strings agree case-insensitively on their common prefix. -/
def icaseAgree : Str → Str → Bool
  | [], _ => true
  | _, [] => true
  | a :: as, b :: bs => a.toLower == b.toLower && icaseAgree as bs

/-- No suffix of `s` agrees case-insensitively with a prefix of `kw`; hence
no match of a regex that begins with the literal `kw` can start inside `s`,
whatever text follows `s`. -/
def noTouch (kw : Str) : Str → Bool
  | [] => true
  | c :: cs => !icaseAgree (c :: cs) kw && noTouch kw cs

/-- Split at the first occurrence of `stop`: the pair is (run before the
first `stop`, text after it).  Models a greedy `[^X]+` run followed by the
literal `X` (the run must be non-empty, which callers check). -/
def splitAtChar (stop : Char) : Str → Option (Str × Str)
  | [] => none
  | c :: cs =>
    if c = stop then some ([], cs)
    else (splitAtChar stop cs).map (fun p => (c :: p.1, p.2))

/-- Longest prefix without a newline, together with the text after the
first newline when there is one. -/
def splitAtNl : Str → Str × Option Str
  | [] => ([], none)
  | c :: cs =>
    if c = '\n' then ([], some cs)
    else
      let p := splitAtNl cs
      (c :: p.1, p.2)

/-- Match `\s*([^|]+)\|` (or the lazy variant `([^|]+?)\s*\|`, whose overall
extent is the same) at the head of the text: consumes everything up to and
including the first `|`, requiring at least one character before it.
Returns (consumed length, full segment before the `|`); the capture group
of the concrete regexes differs from that segment only by surrounding `\s`
characters, which every caller removes with `.trim()`. -/
def matchPipeSeg (cs : Str) : Option (Nat × Str) :=
  match splitAtChar '|' cs with
  | none => none
  | some (b, _) => if b.isEmpty then none else some (b.length + 1, b)

/-- Same as `matchPipeSeg` for `([^+]+?)\s*\+` (first field of the
MERGE_PERSONAS regex). -/
def matchPlusSeg (cs : Str) : Option (Nat × Str) :=
  match splitAtChar '+' cs with
  | none => none
  | some (b, _) => if b.isEmpty then none else some (b.length + 1, b)

/-- Match `[^\n]+\n?` at the head of the text: a non-empty run of
non-newline characters, and the following newline if one stopped the run. -/
def matchLineNl (cs : Str) : Option Nat :=
  let p := splitAtNl cs
  if p.1.isEmpty then none
  else some (p.1.length + (if p.2.isSome then 1 else 0))

/-- Match `\s*([^\n]+)` at the head of the text with JavaScript semantics:
`\s` includes the newline, `\s*` is greedy, and when the whitespace run
reaches the end of the string the engine backtracks so that `[^\n]+`
captures the last non-newline whitespace character.  Returns
(consumed length, captured segment). -/
def matchWsLineSeg (cs : Str) : Option (Nat × Str) :=
  let w := cs.takeWhile isWsChar
  match cs.drop w.length with
  | [] =>
    match w.reverse.dropWhile (fun c => c == '\n') with
    | [] => none
    | c :: r => some (r.length + 1, [c])
  | c :: rest =>
    let p := splitAtNl (c :: rest)
    some (w.length + p.1.length, p.1)

/-- Match `\s*[^\n]+\n?` at the head of the text (the shape of the
`REFINED_NORTHSTAR:` clean-up regex, after the keyword). -/
def matchWsLineNl (cs : Str) : Option Nat :=
  match matchWsLineSeg cs with
  | none => none
  | some (n, _) =>
    match (cs.drop n).head? with
    | some c => if c = '\n' then some (n + 1) else some n
    | none => some n

/-- One pass of `String.prototype.replace` with a `g`-flagged regex and the
empty replacement, driven by a matcher `M` that returns the length of the
match at the head of the text.  The second argument counts characters of a
previous match that are still to be dropped; scanning resumes after every
match, as the JavaScript engine does. -/
def stripGo (M : Str → Option Nat) : Str → Nat → Str
  | [], _ => []
  | _ :: cs, Nat.succ k => stripGo M cs k
  | c :: cs, 0 =>
    match M (c :: cs) with
    | some (Nat.succ k) => stripGo M cs k
    | _ => c :: stripGo M cs 0

/-- Model of `s.replace(re, '')` for a global regex modelled by `M`. -/
def jsReplaceAll (M : Str → Option Nat) (s : Str) : Str := stripGo M s 0

/-- Repeated `RegExp.exec` on a `g`-flagged regex: collect the captures of
every match, resuming after each match. -/
def scanGo {α : Type} (M : Str → Option (Nat × α)) : Str → Nat → List α
  | [], _ => []
  | _ :: cs, Nat.succ k => scanGo M cs k
  | c :: cs, 0 =>
    match M (c :: cs) with
    | some (Nat.succ k, a) => a :: scanGo M cs k
    | _ => scanGo M cs 0

/-- Model of the `while ((match = regex.exec(response)) !== null)` loops. -/
def regexScan {α : Type} (M : Str → Option (Nat × α)) (s : Str) : List α :=
  scanGo M s 0

/-! Grammar keywords of the action grammar (the literal parts of the
regexes in the agents). -/

def kwPC : Str := "PERSONA_CONFIRMED:".data
def kwRN : Str := "REFINED_NORTHSTAR:".data
def kwVP : Str := "VARIANT_PERSONA:".data
def kwRP : Str := "REFINED_PERSONA:".data
def kwDP : Str := "DELETE_PERSONA:".data
def kwMP : Str := "MERGE_PERSONAS:".data
def kwPP : Str := "PRIORITIZE_PERSONA:".data
def kwGC : Str := "GOAL_CONFIRMED:".data
def kwGU : Str := "GOAL_UPDATED:".data
def kwTT : Str := "TRANSITION_TO_GOALS:".data

def allKws : List Str := [kwPC, kwRN, kwVP, kwRP, kwDP, kwMP, kwPP, kwGC, kwGU, kwTT]

/-- Matcher for `KW:\s*[^|]+\|[^\n]+\n?` — the clean-up regexes of
`BaseAgent.cleanResponseForUser` and of the Refinement and Management
overrides. -/
def matchCleanPipeAt (kw : Str) (cs : Str) : Option Nat :=
  match icaseStrip kw cs with
  | none => none
  | some r1 =>
    match matchPipeSeg r1 with
    | none => none
    | some (n1, _) =>
      match matchLineNl (r1.drop n1) with
      | none => none
      | some n2 => some (kw.length + n1 + n2)

/-- Matcher for `KW:\s*[^\n]+\n?` — the `REFINED_NORTHSTAR:` clean-up
regex of `BaseAgent.cleanResponseForUser`. -/
def matchCleanLineAt (kw : Str) (cs : Str) : Option Nat :=
  match icaseStrip kw cs with
  | none => none
  | some r1 =>
    match matchWsLineNl r1 with
    | none => none
    | some n1 => some (kw.length + n1)

/-- Matcher for `KW:\s*([^|]+)\|\s*([^\n]+)` — the PERSONA_CONFIRMED and
REFINED_PERSONA parse regexes (two captured fields). -/
def matchTwoFieldAt (kw : Str) (cs : Str) : Option (Nat × (Str × Str)) :=
  match icaseStrip kw cs with
  | none => none
  | some r1 =>
    match matchPipeSeg r1 with
    | none => none
    | some (n1, f1) =>
      match matchWsLineSeg (r1.drop n1) with
      | none => none
      | some (n2, f2) => some (kw.length + n1 + n2, (f1, f2))

/-- Matcher for `KW:\s*([^\n]+)` — the TRANSITION_TO_GOALS parse regex. -/
def matchOneFieldAt (kw : Str) (cs : Str) : Option (Nat × Str) :=
  match icaseStrip kw cs with
  | none => none
  | some r1 =>
    match matchWsLineSeg r1 with
    | none => none
    | some (n1, f1) => some (kw.length + n1, f1)

/-- Matcher for `KW:\s*([^|]+)\|\s*([^|]+)\|\s*([^\n]+)` — the
GOAL_CONFIRMED parse regex (three captured fields). -/
def matchThreeFieldAt (kw : Str) (cs : Str) : Option (Nat × (Str × Str × Str)) :=
  match icaseStrip kw cs with
  | none => none
  | some r1 =>
    match matchPipeSeg r1 with
    | none => none
    | some (n1, f1) =>
      match matchPipeSeg (r1.drop n1) with
      | none => none
      | some (n2, f2) =>
        match matchWsLineSeg (r1.drop (n1 + n2)) with
        | none => none
        | some (n3, f3) => some (kw.length + n1 + n2 + n3, (f1, f2, f3))

/-- Matcher for `KW:\s*([^|]+)\|\s*([^|]+)\|\s*([^|]+)\|\s*([^\n]+)` — the
GOAL_UPDATED parse regex (four captured fields). -/
def matchFourFieldAt (kw : Str) (cs : Str) :
    Option (Nat × (Str × Str × Str × Str)) :=
  match icaseStrip kw cs with
  | none => none
  | some r1 =>
    match matchPipeSeg r1 with
    | none => none
    | some (n1, f1) =>
      match matchPipeSeg (r1.drop n1) with
      | none => none
      | some (n2, f2) =>
        match matchPipeSeg (r1.drop (n1 + n2)) with
        | none => none
        | some (n3, f3) =>
          match matchWsLineSeg (r1.drop (n1 + n2 + n3)) with
          | none => none
          | some (n4, f4) =>
            some (kw.length + n1 + n2 + n3 + n4, (f1, f2, f3, f4))

/-- Matcher for
`MERGE_PERSONAS:\s*([^+]+?)\s*\+\s*([^|]+?)\s*\|\s*([^|]+?)\s*\|\s*([^\n]+)`
— the merge parse regex of the Management agent. -/
def matchMergeAt (cs : Str) : Option (Nat × (Str × Str × Str × Str)) :=
  match icaseStrip kwMP cs with
  | none => none
  | some r1 =>
    match matchPlusSeg r1 with
    | none => none
    | some (n1, f1) =>
      match matchPipeSeg (r1.drop n1) with
      | none => none
      | some (n2, f2) =>
        match matchPipeSeg (r1.drop (n1 + n2)) with
        | none => none
        | some (n3, f3) =>
          match matchWsLineSeg (r1.drop (n1 + n2 + n3)) with
          | none => none
          | some (n4, f4) =>
            some (kwMP.length + n1 + n2 + n3 + n4, (f1, f2, f3, f4))

/-! Data model of the conversation subsystem
(`services/conversation/ConversationContext.ts` and `types/chat`). -/

inductive AgentType
  | educational
  | discovery
  | refinement
  | management
  | goal
deriving DecidableEq, Fintype

inductive Sender
  | user
  | coach
  | system
deriving DecidableEq

/-- Model of ChatMessage.  The source field `from` is called `sender` here
(`from` is a reserved word in Lean); Date timestamps are epoch
milliseconds. -/
structure ChatMessage where
  id : Str
  sender : Sender
  text : Str
  timestampMs : Nat
deriving DecidableEq

inductive ActionKind
  | create
  | update
  | delete
deriving DecidableEq

/-- Model of PersonaAction (the optional `id` field is never produced by
the parsers and is omitted). -/
structure PersonaAction where
  type : ActionKind
  name : Str
  northStar : Option Str
  previousName : Option Str
deriving DecidableEq

/-- Model of GoalAction (again without the never-produced `id`). -/
structure GoalAction where
  type : ActionKind
  name : Str
  acceptanceCriteria : Option Str
  reviewDate : Option Str
  originalName : Option Str
deriving DecidableEq

/-- Model of TransitionAction; the `type` field is always the string
`transition_to_goals` and is left implicit. -/
structure TransitionAction where
  personaName : Str
deriving DecidableEq

/-- Model of the nested `temporaryState` record.  The agents store a few
extra fields beyond the declared TypeScript interface
(`lastManagementSession`, `managementFocus`, `lastRefinementSession`);
TypeScript's structural typing admits them, so they appear here too.
Draft personas are (name, northStar, confidence) triples. -/
structure TemporaryState where
  draftPersonas : Option (List (Str × Str × Nat))
  workingDefinitions : Option (List Str)
  educationalTopics : Option (List Str)
  goalSettingActive : Option Bool
  lastManagementSession : Option Nat
  managementFocus : Option Str
  lastRefinementSession : Option Nat
deriving DecidableEq

def TemporaryState.empty : TemporaryState :=
  ⟨none, none, none, none, none, none, none⟩

/-- Model of the Persona domain entity (the Date fields `createdAt` and
`updatedAt` are not examined by any claim and are omitted). -/
structure Persona where
  id : Str
  name : Str
  northStar : Str
deriving DecidableEq

structure ConversationContext where
  currentAgentType : AgentType
  targetPersonaId : Option Str
  targetPersona : Option Persona
  temporaryState : TemporaryState
  conversationHistory : List ChatMessage
  lastIntentConfidence : Nat
deriving DecidableEq

/-- The only field of `Partial<ConversationContext>` any agent ever sets is
`temporaryState`, so context updates are modelled as an optional
replacement for it. -/
abbrev ContextUpdates := Option TemporaryState

structure AgentResult where
  userResponse : Str
  personaActions : List PersonaAction
  goalActions : Option (List GoalAction)
  transitionActions : Option (List TransitionAction)
  contextUpdates : ContextUpdates
deriving DecidableEq

/-- Truthiness of an optional string field in JavaScript: present and
non-empty. -/
def jsTruthyOptStr : Option Str → Bool
  | none => false
  | some s => !s.isEmpty

/-! Agents (`services/conversation/agents/`). -/

namespace BaseAgent

/-- Model of `BaseAgent.cleanResponseForUser`: three sequential global
`replace`s (PERSONA_CONFIRMED, REFINED_NORTHSTAR, VARIANT_PERSONA, in that
order), then `.trim()`. -/
def cleanResponseForUser (aiResponse : Str) : Str :=
  jsTrim (jsReplaceAll (matchCleanPipeAt kwVP)
    (jsReplaceAll (matchCleanLineAt kwRN)
      (jsReplaceAll (matchCleanPipeAt kwPC) aiResponse)))

end BaseAgent

namespace DiscoveryAgent

/-- Model of `DiscoveryAgent.canHandle`. -/
def canHandle (userMessage : Str) : Bool :=
  let msg := lcStr userMessage
  includesSub msg "ready".data || includesSub msg "discover".data ||
  includesSub msg "create".data || includesSub msg "my own".data

/-- Model of `DiscoveryAgent.parsePersonaActions`:
`/PERSONA_CONFIRMED:\s*([^|]+)\|\s*([^\n]+)/gi`, each match yielding a
create action with both captures trimmed. -/
def parsePersonaActions (response : Str) : List PersonaAction :=
  (regexScan (matchTwoFieldAt kwPC) response).map
    (fun p => ⟨ActionKind.create, jsTrim p.1, some (jsTrim p.2), none⟩)

/-- Model of `DiscoveryAgent.parseTransitionActions`:
`/TRANSITION_TO_GOALS:\s*([^\n]+)/gi`. -/
def parseTransitionActions (response : Str) : List TransitionAction :=
  (regexScan (matchOneFieldAt kwTT) response).map (fun f => ⟨jsTrim f⟩)

/-- Model of `DiscoveryAgent.processResponse`. -/
def processResponse (aiResponse : Str) (_ctx : ConversationContext) :
    AgentResult :=
  { userResponse := BaseAgent.cleanResponseForUser aiResponse
    personaActions := parsePersonaActions aiResponse
    goalActions := none
    transitionActions := some (parseTransitionActions aiResponse)
    contextUpdates := none }

end DiscoveryAgent

namespace EducationalAgent

/-- Model of `EducationalAgent.canHandle`. -/
def canHandle (userMessage : Str) : Bool :=
  let msg := lcStr userMessage
  includesSub msg "what".data || includesSub msg "explain".data ||
  includesSub msg "examples".data

/-- Model of `EducationalAgent.parsePersonaActions` (same regex as the
Discovery agent). -/
def parsePersonaActions (response : Str) : List PersonaAction :=
  (regexScan (matchTwoFieldAt kwPC) response).map
    (fun p => ⟨ActionKind.create, jsTrim p.1, some (jsTrim p.2), none⟩)

/-- Model of `EducationalAgent.parseTransitionActions`. -/
def parseTransitionActions (response : Str) : List TransitionAction :=
  (regexScan (matchOneFieldAt kwTT) response).map (fun f => ⟨jsTrim f⟩)

/-- Model of `EducationalAgent.processResponse`. -/
def processResponse (aiResponse : Str) (ctx : ConversationContext) :
    AgentResult :=
  { userResponse := BaseAgent.cleanResponseForUser aiResponse
    personaActions := parsePersonaActions aiResponse
    goalActions := none
    transitionActions := some (parseTransitionActions aiResponse)
    contextUpdates := some { ctx.temporaryState with
      educationalTopics := some
        ["persona-concept".data, "northstar-concept".data, "examples".data] } }

end EducationalAgent

namespace GoalAgent

/-- Model of `GoalAgent.canHandle`. -/
def canHandle (userMessage : Str) : Bool :=
  let msg := lcStr userMessage
  includesSub msg "goal".data || includesSub msg "achieve".data ||
  includesSub msg "target".data || includesSub msg "accomplish".data ||
  includesSub msg "track".data || includesSub msg "progress".data

/-- Model of `GoalAgent.parseGoalActions`: first every GOAL_CONFIRMED match
(create actions), then every GOAL_UPDATED match (update actions); all
fields trimmed. -/
def parseGoalActions (response : Str) : List GoalAction :=
  ((regexScan (matchThreeFieldAt kwGC) response).map
    (fun p => ⟨ActionKind.create, jsTrim p.1, some (jsTrim p.2.1),
      some (jsTrim p.2.2), none⟩)) ++
  ((regexScan (matchFourFieldAt kwGU) response).map
    (fun p => ⟨ActionKind.update, jsTrim p.2.1, some (jsTrim p.2.2.1),
      some (jsTrim p.2.2.2), some (jsTrim p.1)⟩))

/-- Model of `GoalAgent.processResponse`.  Note that the Goal agent uses
the unmodified `BaseAgent.cleanResponseForUser`, which strips no goal
grammar lines. -/
def processResponse (aiResponse : Str) (ctx : ConversationContext) :
    AgentResult :=
  { userResponse := BaseAgent.cleanResponseForUser aiResponse
    personaActions := []
    goalActions := some (parseGoalActions aiResponse)
    transitionActions := none
    contextUpdates := some { ctx.temporaryState with
      goalSettingActive := some true } }

end GoalAgent

namespace RefinementAgent

/-- Model of `RefinementAgent.canHandle`. -/
def canHandle (userMessage : Str) (ctx : ConversationContext) : Bool :=
  let msg := lcStr userMessage
  includesSub msg "refine".data || includesSub msg "change".data ||
  includesSub msg "better".data || includesSub msg "improve".data ||
  includesSub msg "update".data || includesSub msg "modify".data ||
  jsTruthyOptStr ctx.targetPersonaId

/-- Model of `RefinementAgent.parseRefinementActions`:
`/REFINED_PERSONA:\s*([^|]+?)\s*\|\s*([^\n]+)/gi`; a match is kept only
when the trimmed name is non-empty, the trimmed north star is non-empty
and the trimmed north star is longer than 10 characters (JavaScript
`.length` counts UTF-16 units, which coincides with the character count on
the basic multilingual plane). -/
def parseRefinementActions (response : Str) : List PersonaAction :=
  (regexScan (matchTwoFieldAt kwRP) response).filterMap
    (fun p =>
      let personaName := jsTrim p.1
      let northStar := jsTrim p.2
      if !personaName.isEmpty && !northStar.isEmpty &&
          decide (10 < northStar.length) then
        some ⟨ActionKind.update, personaName, some northStar, none⟩
      else none)

/-- Model of the `RefinementAgent.cleanResponseForUser` override:
`super.cleanResponseForUser`, then stripping REFINED_PERSONA lines, then
`.trim()`. -/
def cleanResponseForUser (aiResponse : Str) : Str :=
  jsTrim (jsReplaceAll (matchCleanPipeAt kwRP)
    (BaseAgent.cleanResponseForUser aiResponse))

/-- Model of `RefinementAgent.processResponse`; `now` models `Date.now()`. -/
def processResponse (aiResponse : Str) (now : Nat)
    (ctx : ConversationContext) : AgentResult :=
  { userResponse := cleanResponseForUser aiResponse
    personaActions := parseRefinementActions aiResponse
    goalActions := none
    transitionActions := none
    contextUpdates := some { ctx.temporaryState with
      lastRefinementSession := some now } }

end RefinementAgent

namespace ManagementAgent

/-- Model of `ManagementAgent.canHandle`. -/
def canHandle (userMessage : Str) : Bool :=
  let msg := lcStr userMessage
  includesSub msg "manage".data || includesSub msg "organize".data ||
  includesSub msg "review".data || includesSub msg "overview".data ||
  includesSub msg "list".data || includesSub msg "delete".data ||
  includesSub msg "remove".data || includesSub msg "show me".data ||
  includesSub msg "which personas".data

/-- Model of `ManagementAgent.parseManagementActions`: all DELETE_PERSONA
matches (delete actions), then for each MERGE_PERSONAS match an update of
the first persona followed by a delete of the second; PRIORITIZE_PERSONA
matches are only logged and yield no action. -/
def parseManagementActions (response : Str) : List PersonaAction :=
  ((regexScan (matchTwoFieldAt kwDP) response).map
    (fun p => ⟨ActionKind.delete, jsTrim p.1, none, none⟩)) ++
  ((regexScan matchMergeAt response).flatMap
    (fun p =>
      [⟨ActionKind.update, jsTrim p.2.2.1, some (jsTrim p.2.2.2),
        some (jsTrim p.1)⟩,
       ⟨ActionKind.delete, jsTrim p.2.1, none, none⟩]))

/-- Model of `ManagementAgent.extractManagementFocus`. -/
def extractManagementFocus (response : Str) : Str :=
  let msg := lcStr response
  if includesSub msg "merge".data || includesSub msg "combine".data then
    "merging".data
  else if includesSub msg "delete".data || includesSub msg "remove".data then
    "cleanup".data
  else if includesSub msg "priority".data || includesSub msg "focus".data then
    "prioritization".data
  else if includesSub msg "organize".data || includesSub msg "group".data then
    "organization".data
  else "overview".data

/-- Model of the `ManagementAgent.cleanResponseForUser` override:
`super.cleanResponseForUser`, then stripping DELETE_PERSONA,
MERGE_PERSONAS and PRIORITIZE_PERSONA lines, then `.trim()`. -/
def cleanResponseForUser (aiResponse : Str) : Str :=
  jsTrim (jsReplaceAll (matchCleanPipeAt kwPP)
    (jsReplaceAll (matchCleanPipeAt kwMP)
      (jsReplaceAll (matchCleanPipeAt kwDP)
        (BaseAgent.cleanResponseForUser aiResponse))))

/-- Model of `ManagementAgent.processResponse`; `now` models `Date.now()`. -/
def processResponse (aiResponse : Str) (now : Nat)
    (ctx : ConversationContext) : AgentResult :=
  { userResponse := cleanResponseForUser aiResponse
    personaActions := parseManagementActions aiResponse
    goalActions := none
    transitionActions := none
    contextUpdates := some { ctx.temporaryState with
      lastManagementSession := some now
      managementFocus := some (extractManagementFocus aiResponse) } }

end ManagementAgent

/-! Conversation Manager (`services/conversation/ConversationManager.ts`). -/

namespace ConversationManager

/-- The constructor registers all five agents; `analyzeIntent` and
`processMessage` only consult whether an agent is registered for a type,
so the `agents` map is modelled by its domain. -/
def initialAgents : AgentType → Bool := fun _ => true

/-- The Goal keyword group of `analyzeIntent`. -/
def goalKeywordHit (userMessage : Str) : Bool :=
  let msg := lcStr userMessage
  includesSub msg "goal".data || includesSub msg "achieve".data ||
  includesSub msg "target".data || includesSub msg "accomplish".data ||
  includesSub msg "track".data || includesSub msg "progress".data ||
  includesSub msg "review".data || includesSub msg "measure".data

/-- The Educational keyword group of `analyzeIntent`. -/
def educationalKeywordHit (userMessage : Str) : Bool :=
  let msg := lcStr userMessage
  includesSub msg "what is".data || includesSub msg "what are".data ||
  includesSub msg "explain".data || includesSub msg "examples".data ||
  includesSub msg "help me understand".data

/-- The Discovery keyword group of `analyzeIntent`. -/
def discoveryKeywordHit (userMessage : Str) : Bool :=
  let msg := lcStr userMessage
  includesSub msg "ready".data || includesSub msg "create".data ||
  includesSub msg "discover".data || includesSub msg "my own".data ||
  includesSub msg "identify".data || includesSub msg "find my".data

/-- The Refinement keyword group of `analyzeIntent` (without the sticky
target-persona test, which the source puts in the same condition). -/
def refinementKeywordHit (userMessage : Str) : Bool :=
  let msg := lcStr userMessage
  includesSub msg "refine".data || includesSub msg "change".data ||
  includesSub msg "better".data || includesSub msg "improve".data ||
  includesSub msg "update".data || includesSub msg "modify".data ||
  includesSub msg "fix".data

/-- Model of `ConversationManager.analyzeIntent`: fixed priority order of
keyword groups (Goal, then Educational, then Discovery, then Refinement,
whose test also fires when a target persona id is set), with the current
agent type as default and Educational as fallback when the current type
has no registered agent. -/
def analyzeIntent (agents : AgentType → Bool) (ctx : ConversationContext)
    (userMessage : Str) : AgentType :=
  if goalKeywordHit userMessage then AgentType.goal
  else if educationalKeywordHit userMessage then AgentType.educational
  else if discoveryKeywordHit userMessage then AgentType.discovery
  else if refinementKeywordHit userMessage ||
      jsTruthyOptStr ctx.targetPersonaId then AgentType.refinement
  else if agents ctx.currentAgentType then ctx.currentAgentType
  else AgentType.educational

/-- Dispatch of `agent.processResponse` over the agent registered for a
type; `now` models `Date.now()` for the agents that read the clock. -/
def agentProcessResponse (t : AgentType) (aiResponse : Str) (now : Nat)
    (ctx : ConversationContext) : AgentResult :=
  match t with
  | AgentType.educational => EducationalAgent.processResponse aiResponse ctx
  | AgentType.discovery => DiscoveryAgent.processResponse aiResponse ctx
  | AgentType.refinement => RefinementAgent.processResponse aiResponse now ctx
  | AgentType.management => ManagementAgent.processResponse aiResponse now ctx
  | AgentType.goal => GoalAgent.processResponse aiResponse ctx

/-- Model of `ConversationManager.processWithAgent` after the AI call: the
raw reply `aiResponse` stands for the result of `callAI`; the context is
rebuilt with the agent's context updates spread in and the history
extended by the user message and the cleaned coach reply (the explicit
`conversationHistory` field wins over any update, exactly as the object
spread in the source does).  `uid`/`cid` model the two generated message
ids and `now` the timestamps. -/
def processWithAgent (t : AgentType) (aiResponse : Str) (userMessage : Str)
    (uid cid : Str) (now : Nat) (ctx : ConversationContext) :
    AgentResult × ConversationContext :=
  let result := agentProcessResponse t aiResponse now ctx
  let newState := match result.contextUpdates with
    | some ts => ts
    | none => ctx.temporaryState
  (result,
   { ctx with
     temporaryState := newState
     conversationHistory := ctx.conversationHistory ++
       [⟨uid, Sender.user, userMessage, now⟩,
        ⟨cid, Sender.coach, result.userResponse, now⟩] })

end ConversationManager

/-! Persona services (`services/personaService.ts`, concatenated into
`ConversationContext.ts` in this snapshot, and
`services/AuthAwarePersonaService.ts`). -/

structure PersonaServiceResult (α : Type) where
  success : Bool
  data : Option α
  error : Option Str
deriving DecidableEq

namespace PersonaService

/-- Model of `PersonaService.createPersona`.  `newId` models the generated
`persona-${Date.now()}-…` id.  The capacity check precedes any mutation;
the error message is `Maximum ${maxPersonas} personas allowed`. -/
def createPersona (maxPersonas : Nat) (personas : List Persona)
    (newId name northStar : Str) :
    PersonaServiceResult Persona × List Persona :=
  if maxPersonas ≤ personas.length then
    (⟨false, none, some ("Maximum ".data ++ (Nat.repr maxPersonas).data ++
      " personas allowed".data)⟩, personas)
  else
    let p : Persona := ⟨newId, name, northStar⟩
    (⟨true, some p, none⟩, personas ++ [p])

/-- Overwrite the first persona with the given id (the `findIndex` plus
index assignment of `updatePersona`, written as one recursion): returns
the updated persona and the updated list, when the id occurs. -/
def updateFirstById (id : Str) (name northStar : Option Str) :
    List Persona → Option (Persona × List Persona)
  | [] => none
  | q :: qs =>
    if q.id == id then
      let upd : Persona :=
        { q with
          name := match name with | some n => n | none => q.name
          northStar :=
            match northStar with | some n => n | none => q.northStar }
      some (upd, upd :: qs)
    else (updateFirstById id name northStar qs).map (fun r => (r.1, q :: r.2))

/-- Model of `PersonaService.updatePersona`: locate the persona by id
(`findIndex`), overwrite the given fields in place. -/
def updatePersona (personas : List Persona) (id : Str)
    (name northStar : Option Str) :
    PersonaServiceResult Persona × List Persona :=
  match updateFirstById id name northStar personas with
  | none => (⟨false, none, some "Persona not found".data⟩, personas)
  | some (upd, l) => (⟨true, some upd, none⟩, l)

/-- One parsed coach update (`parsePersonaUpdates` output element). -/
structure UpdateRec where
  name : Str
  northStar : Str
  previousName : Option Str
deriving DecidableEq

/-- Normalisation used by `applyUpdates` when matching names:
`.trim().toLowerCase()`. -/
def normName (s : Str) : Str := lcStr (jsTrim s)

/-- Model of one iteration of the `applyUpdates` loop: find a persona by
`previousName` (case-insensitive, trimmed), else by `name`; update it in
place when found, otherwise create a new persona unless one with the same
name already exists.  `newId` models the id that `createPersona` would
generate. -/
def applyOneUpdate (maxPersonas : Nat) (personas : List Persona)
    (newId : Str) (u : UpdateRec) : List Persona :=
  let byPrev : Option Persona := match u.previousName with
    | some pn => personas.find? (fun p => normName p.name == normName pn)
    | none => none
  let existing : Option Persona := match byPrev with
    | some p => some p
    | none => personas.find? (fun p => normName p.name == normName u.name)
  match existing with
  | some p =>
    (updatePersona personas p.id (some u.name) (some u.northStar)).2
  | none =>
    if (personas.find? (fun p => normName p.name == normName u.name)).isSome
    then personas
    else (createPersona maxPersonas personas newId u.name u.northStar).2

/-- Model of `PersonaService.applyUpdates`; `ids` supplies one fresh id per
iteration. -/
def applyUpdates (maxPersonas : Nat) :
    List Persona → List Str → List UpdateRec → List Persona
  | personas, _, [] => personas
  | personas, ids, u :: us =>
    let newId := match ids with | i :: _ => i | [] => []
    let rest := match ids with | _ :: t => t | [] => []
    applyUpdates maxPersonas (applyOneUpdate maxPersonas personas newId u)
      rest us

end PersonaService

namespace AuthAwarePersonaService

/-- State of `AuthAwarePersonaService` relevant to creation: the cached
persona list, the capacity and the dirty flag. -/
structure State where
  personas : List Persona
  maxPersonas : Nat
  pendingChanges : Bool
deriving DecidableEq

/-- Model of `AuthAwarePersonaService.createPersona`: identical capacity
guard and error message; on success the persona is appended and the dirty
flag set (the cloud/local sync that follows does not change the list). -/
def createPersona (st : State) (newId name northStar : Str) :
    PersonaServiceResult Persona × State :=
  if st.maxPersonas ≤ st.personas.length then
    (⟨false, none, some ("Maximum ".data ++ (Nat.repr st.maxPersonas).data ++
      " personas allowed".data)⟩, st)
  else
    let p : Persona := ⟨newId, name, northStar⟩
    (⟨true, some p, none⟩,
     { st with personas := st.personas ++ [p], pendingChanges := true })

end AuthAwarePersonaService

/-! Chat service (`services/chatService.ts`). -/

namespace ChatService

/-- The state of a ChatService instance that the modelled operations
read or write. -/
structure State where
  messages : List ChatMessage
  maxMessages : Nat
  pendingMessages : List ChatMessage
  isOnline : Bool
  currentConversationId : Option Str
deriving DecidableEq

/-- Model of `Array.prototype.slice(start)` for a single, possibly
negative, start index. -/
def jsSliceFrom (start : Int) (l : List ChatMessage) : List ChatMessage :=
  if start < 0 then l.drop (Int.toNat (Int.ofNat l.length + start))
  else l.drop (Int.toNat start)

/-- Model of `ChatService.addMessage`: push the message; when the count
exceeds `maxMessages`, keep every system message plus the
`maxMessages - systemCount` most recent non-system messages. -/
def addMessage (st : State) (m : ChatMessage) : State :=
  let msgs := st.messages ++ [m]
  if st.maxMessages < msgs.length then
    let systemMessages := msgs.filter (fun x => x.sender == Sender.system)
    let recentMessages :=
      jsSliceFrom (-(Int.ofNat st.maxMessages) +
          Int.ofNat systemMessages.length)
        (msgs.filter (fun x => !(x.sender == Sender.system)))
    { st with messages := systemMessages ++ recentMessages }
  else { st with messages := msgs }

/-- Observable effects of the persistence layer: a POST of a message to
the backend, or a `setTimeout(retryPendingMessages, delayMs)`. -/
inductive Eff
  | post (m : ChatMessage)
  | scheduleRetry (delayMs : Nat)
deriving DecidableEq

/-- Model of `ChatService.saveMessageToBackend`; `netOk` is the outcome of
the POST when one is attempted.  Offline or without a conversation the
message is queued and nothing else happens; a failed POST queues the
message, marks the service offline and schedules a retry in 5000 ms. -/
def saveMessageToBackend (netOk : Bool) (st : State) (m : ChatMessage) :
    State × List Eff :=
  if st.currentConversationId.isNone || !st.isOnline then
    ({ st with pendingMessages := st.pendingMessages ++ [m] }, [])
  else if netOk then (st, [Eff.post m])
  else
    ({ st with
        pendingMessages := st.pendingMessages ++ [m]
        isOnline := false },
     [Eff.scheduleRetry 5000])

/-- The `for (const message of messagesToSave)` loop of
`retryPendingMessages`: re-save each snapshot message in order through
`saveMessageToBackend`; `net` gives the outcome of the i-th POST
attempted. -/
def retrySaveLoop (net : Nat → Bool) :
    List ChatMessage → Nat → State → State × List Eff
  | [], _, st => (st, [])
  | m :: ms, i, st =>
    let r := saveMessageToBackend (net i) st m
    let rest := retrySaveLoop net ms (i + 1) r.1
    (rest.1, r.2 ++ rest.2)

/-- Model of `ChatService.retryPendingMessages`; `probeOk` is the outcome
of the `/health` probe, `net` the outcomes of the subsequent POSTs.  An
empty queue just flips the service online; a failed probe schedules
another retry in 10000 ms; a successful probe marks the service online,
empties the queue and re-saves the snapshot in order. -/
def retryPendingMessages (probeOk : Bool) (net : Nat → Bool) (st : State) :
    State × List Eff :=
  if st.pendingMessages.isEmpty then ({ st with isOnline := true }, [])
  else if !probeOk then (st, [Eff.scheduleRetry 10000])
  else
    let messagesToSave := st.pendingMessages
    retrySaveLoop net messagesToSave 0
      { st with isOnline := true, pendingMessages := [] }

end ChatService

/-! Structured replies.  The universally quantified claims about response
parsing and cleaning speak about replies that contain well-formed grammar
lines; such replies are modelled as a list of parts, each part either a
free-text segment or one grammar line, rendered by concatenation. -/

inductive Marker
  | personaConfirmed
  | refinedPersona
  | deletePersona
  | mergePersonas
  | goalConfirmed
  | goalUpdated
  | transitionToGoals
deriving DecidableEq, Fintype

def Marker.str : Marker → Str
  | .personaConfirmed => kwPC
  | .refinedPersona => kwRP
  | .deletePersona => kwDP
  | .mergePersonas => kwMP
  | .goalConfirmed => kwGC
  | .goalUpdated => kwGU
  | .transitionToGoals => kwTT

inductive RPart
  | plain (s : Str)
  | line2 (k : Marker) (name ns : Str)
  | lineG3 (a b c : Str)
  | lineG4 (a b c d : Str)
  | lineT (a : Str)
deriving DecidableEq

/-- Rendering of a part: a two-field grammar line is
`KW name|ns` plus a newline, the goal lines carry three and four
pipe-separated fields, the transition line a single field. -/
def RPart.render : RPart → Str
  | .plain s => s
  | .line2 k n ns => k.str ++ n ++ '|' :: (ns ++ ['\n'])
  | .lineG3 a b c => kwGC ++ a ++ '|' :: (b ++ '|' :: (c ++ ['\n']))
  | .lineG4 a b c d =>
    kwGU ++ a ++ '|' :: (b ++ '|' :: (c ++ '|' :: (d ++ ['\n'])))
  | .lineT a => kwTT ++ a ++ ['\n']

def renderAll : List RPart → Str
  | [] => []
  | p :: ps => p.render ++ renderAll ps

/-- A safe free-text segment: no suffix of it begins (case-insensitively)
like any grammar keyword, so no grammar match can start inside it. -/
def plainOk (s : Str) : Bool :=
  allKws.all (fun kw => noTouch kw s)

/-- A well-formed grammar-line field: no field separator, no newline, a
non-whitespace character somewhere, and no keyword fragment. -/
def fieldOk (s : Str) : Bool :=
  decide ('|' ∉ s) && decide ('\n' ∉ s) &&
  !((s.dropWhile isWsChar).isEmpty) && plainOk s

/-- Well-formedness of one reply part. -/
def PartOk : RPart → Bool
  | .plain s => plainOk s
  | .line2 k n ns =>
    (k == Marker.personaConfirmed || k == Marker.refinedPersona ||
     k == Marker.deletePersona || k == Marker.mergePersonas) &&
    fieldOk n && fieldOk ns
  | .lineG3 a b c => fieldOk a && fieldOk b && fieldOk c
  | .lineG4 a b c d => fieldOk a && fieldOk b && fieldOk c && fieldOk d
  | .lineT a => fieldOk a

/-- Is this part a two-field grammar line with the given keyword? -/
def RPart.isLine2Of (kw : Str) : RPart → Bool
  | .line2 k _ _ => k.str == kw
  | _ => false

/-- The two raw fields of a PERSONA_CONFIRMED line. -/
def RPart.pcFields : RPart → Option (Str × Str)
  | .line2 Marker.personaConfirmed n ns => some (n, ns)
  | _ => none

/-- The two raw fields of a REFINED_PERSONA line. -/
def RPart.rpFields : RPart → Option (Str × Str)
  | .line2 Marker.refinedPersona n ns => some (n, ns)
  | _ => none

/-- The three raw fields of a GOAL_CONFIRMED line. -/
def RPart.gcFields : RPart → Option (Str × Str × Str)
  | .lineG3 a b c => some (a, b, c)
  | _ => none

/-- The four raw fields of a GOAL_UPDATED line. -/
def RPart.guFields : RPart → Option (Str × Str × Str × Str)
  | .lineG4 a b c d => some (a, b, c, d)
  | _ => none

/-- A plain conversation context used to instantiate agents in concrete
examples (the Discovery agent ignores it). -/
def ctxEx : ConversationContext :=
  ⟨AgentType.discovery, none, none, TemporaryState.empty, [], 0⟩

/-- A context with a target persona set, as after `setTargetPersona`. -/
def ctxTarget : ConversationContext :=
  ⟨AgentType.discovery, some "persona-1".data, none, TemporaryState.empty, [], 0⟩

/-! Helper lemmas about the case-insensitive machinery. -/

theorem icaseAgree_nil_right (a : Str) : icaseAgree a [] = true := by
  cases a <;> rfl

theorem icaseAgree_of_append {kw a b : Str}
    (h : icaseAgree (a ++ b) kw = true) : icaseAgree a kw = true := by
  induction a generalizing kw with
  | nil => cases kw <;> rfl
  | cons c cs ih =>
    cases kw with
    | nil => exact icaseAgree_nil_right _
    | cons k ks =>
      simp only [List.cons_append, icaseAgree, Bool.and_eq_true] at h ⊢
      exact ⟨h.1, ih h.2⟩

theorem icaseAgree_of_icaseStrip {kw cs : Str}
    (h : (icaseStrip kw cs).isSome = true) : icaseAgree cs kw = true := by
  induction kw generalizing cs with
  | nil => exact icaseAgree_nil_right _
  | cons k ks ih =>
    cases cs with
    | nil => simp [icaseStrip] at h
    | cons c cs' =>
      by_cases hc : k.toLower = c.toLower
      · simp only [icaseStrip, if_pos hc] at h
        simp only [icaseAgree, Bool.and_eq_true]
        exact ⟨by simp [hc], ih h⟩
      · simp [icaseStrip, hc] at h

theorem noTouch_head {kw : Str} {c : Char} {cs : Str}
    (h : noTouch kw (c :: cs) = true) : icaseAgree (c :: cs) kw = false := by
  simp only [noTouch, Bool.and_eq_true, Bool.not_eq_true'] at h
  exact h.1

theorem noTouch_tail {kw : Str} {c : Char} {cs : Str}
    (h : noTouch kw (c :: cs) = true) : noTouch kw cs = true := by
  simp only [noTouch, Bool.and_eq_true] at h
  exact h.2

theorem noTouch_append {kw a b : Str} (ha : noTouch kw a = true)
    (hb : noTouch kw b = true) : noTouch kw (a ++ b) = true := by
  induction a with
  | nil => simpa using hb
  | cons c cs ih =>
    rw [List.cons_append]
    simp only [noTouch, Bool.and_eq_true, Bool.not_eq_true']
    refine ⟨?_, ih (noTouch_tail ha) ⟩
    cases hagree : icaseAgree (c :: (cs ++ b)) kw with
    | false => rfl
    | true =>
      have : icaseAgree (c :: cs) kw = true := by
        have := @icaseAgree_of_append kw (c :: cs) b (by
          simpa [List.cons_append] using hagree)
        exact this
      rw [noTouch_head ha] at this
      exact this.symm

theorem noTouch_of_icaseStrip_none {kw : Str} (_hkw : kw ≠ []) {s : Str}
    (h : noTouch kw s = true) (b : Str) (i : Nat) (hi : i < s.length) :
    (icaseStrip kw ((s ++ b).drop i)).isSome = false := by
  induction s generalizing i with
  | nil => simp at hi
  | cons c cs ih =>
    cases i with
    | zero =>
      cases hstrip : (icaseStrip kw ((c :: cs ++ b).drop 0)).isSome with
      | false => rfl
      | true =>
        exfalso
        have hag := icaseAgree_of_icaseStrip (by simpa using hstrip)
        have : icaseAgree (c :: cs) kw = true :=
          icaseAgree_of_append (by simpa [List.cons_append] using hag)
        rw [noTouch_head h] at this
        exact Bool.false_ne_true this
    | succ j =>
      have := ih (noTouch_tail h) j (by simpa using Nat.lt_of_succ_lt_succ hi)
      simpa using this

/-! Helper lemmas about the strip and scan engines. -/

theorem stripGo_skip_drop (M : Str → Option Nat) :
    ∀ (cs : Str) (k : Nat), stripGo M cs k = stripGo M (cs.drop k) 0 := by
  intro cs
  induction cs with
  | nil => intro k; cases k <;> rfl
  | cons c cs ih =>
    intro k
    cases k with
    | zero => rfl
    | succ j => simpa [stripGo] using ih j

theorem scanGo_skip_drop {α : Type} (M : Str → Option (Nat × α)) :
    ∀ (cs : Str) (k : Nat), scanGo M cs k = scanGo M (cs.drop k) 0 := by
  intro cs
  induction cs with
  | nil => intro k; cases k <;> rfl
  | cons c cs ih =>
    intro k
    cases k with
    | zero => rfl
    | succ j => simpa [scanGo] using ih j

theorem stripGo_cons_none (M : Str → Option Nat) {c : Char} {cs : Str}
    (h : M (c :: cs) = none) :
    stripGo M (c :: cs) 0 = c :: stripGo M cs 0 := by
  simp [stripGo, h]

theorem stripGo_match_drop (M : Str → Option Nat) {cs : Str} {m : Nat}
    (h : M cs = some m) (hm : 0 < m) (hne : cs ≠ []) :
    stripGo M cs 0 = stripGo M (cs.drop m) 0 := by
  cases cs with
  | nil => exact absurd rfl hne
  | cons c cs' =>
    cases m with
    | zero => exact absurd hm (by simp)
    | succ j =>
      simp only [stripGo, h]
      exact stripGo_skip_drop M cs' j

theorem scanGo_cons_none {α : Type} (M : Str → Option (Nat × α)) {c : Char}
    {cs : Str} (h : M (c :: cs) = none) :
    scanGo M (c :: cs) 0 = scanGo M cs 0 := by
  simp [scanGo, h]

theorem scanGo_match_drop {α : Type} (M : Str → Option (Nat × α)) {cs : Str}
    {m : Nat} {a : α} (h : M cs = some (m, a)) (hm : 0 < m) (hne : cs ≠ []) :
    scanGo M cs 0 = a :: scanGo M (cs.drop m) 0 := by
  cases cs with
  | nil => exact absurd rfl hne
  | cons c cs' =>
    cases m with
    | zero => exact absurd hm (by simp)
    | succ j =>
      simp only [scanGo, h]
      rw [scanGo_skip_drop M cs' j]
      simp

theorem stripGo_noTouch_append (M : Str → Option Nat) (kw : Str)
    (hkw : kw ≠ [])
    (hM : ∀ cs, (M cs).isSome = true → (icaseStrip kw cs).isSome = true) :
    ∀ (a : Str) (b : Str), noTouch kw a = true →
      stripGo M (a ++ b) 0 = a ++ stripGo M b 0 := by
  intro a
  induction a with
  | nil => intro b _; rfl
  | cons c cs ih =>
    intro b ha
    have hnone : M (c :: (cs ++ b)) = none := by
      cases hMv : M (c :: (cs ++ b)) with
      | none => rfl
      | some v =>
        exfalso
        have h1 : (icaseStrip kw (((c :: cs) ++ b).drop 0)).isSome = false :=
          noTouch_of_icaseStrip_none hkw ha b 0 (by simp)
        have h2 := hM (c :: (cs ++ b)) (by rw [hMv]; rfl)
        simp only [List.drop_zero, List.cons_append] at h1
        rw [h2] at h1
        exact absurd h1 (by simp)
    show stripGo M (c :: (cs ++ b)) 0 = (c :: cs) ++ stripGo M b 0
    rw [stripGo_cons_none M hnone, ih b (noTouch_tail ha), List.cons_append]

theorem scanGo_noTouch_append {α : Type} (M : Str → Option (Nat × α))
    (kw : Str) (hkw : kw ≠ [])
    (hM : ∀ cs, (M cs).isSome = true → (icaseStrip kw cs).isSome = true) :
    ∀ (a : Str) (b : Str), noTouch kw a = true →
      scanGo M (a ++ b) 0 = scanGo M b 0 := by
  intro a
  induction a with
  | nil => intro b _; rfl
  | cons c cs ih =>
    intro b ha
    have hnone : M (c :: (cs ++ b)) = none := by
      cases hMv : M (c :: (cs ++ b)) with
      | none => rfl
      | some v =>
        exfalso
        have h1 : (icaseStrip kw (((c :: cs) ++ b).drop 0)).isSome = false :=
          noTouch_of_icaseStrip_none hkw ha b 0 (by simp)
        have h2 := hM (c :: (cs ++ b)) (by rw [hMv]; rfl)
        simp only [List.drop_zero, List.cons_append] at h1
        rw [h2] at h1
        exact absurd h1 (by simp)
    show scanGo M (c :: (cs ++ b)) 0 = scanGo M b 0
    rw [scanGo_cons_none M hnone]
    exact ih b (noTouch_tail ha)

theorem stripGo_noTouch_self (M : Str → Option Nat) (kw : Str)
    (hkw : kw ≠ [])
    (hM : ∀ cs, (M cs).isSome = true → (icaseStrip kw cs).isSome = true)
    {s : Str} (h : noTouch kw s = true) : stripGo M s 0 = s := by
  have := stripGo_noTouch_append M kw hkw hM s [] h
  simpa [stripGo] using this

/-! Computation lemmas for the matchers on well-formed grammar lines. -/

theorem icaseStrip_self_append (kw t : Str) :
    icaseStrip kw (kw ++ t) = some t := by
  induction kw with
  | nil => rfl
  | cons k ks ih => simp [icaseStrip, ih]

theorem splitAtChar_append {stop : Char} {a : Str} (b : Str)
    (h : stop ∉ a) :
    splitAtChar stop (a ++ stop :: b) = some (a, b) := by
  induction a with
  | nil => simp [splitAtChar]
  | cons c cs ih =>
    have hc : ¬ c = stop := fun hc => h (hc ▸ List.mem_cons_self c cs)
    have hcs : stop ∉ cs := fun hm => h (List.mem_cons_of_mem c hm)
    simp [splitAtChar, hc, ih hcs]

theorem splitAtNl_append {a : Str} (b : Str) (h : '\n' ∉ a) :
    splitAtNl (a ++ '\n' :: b) = (a, some b) := by
  induction a with
  | nil => simp [splitAtNl]
  | cons c cs ih =>
    have hc : ¬ c = '\n' := fun hc => h (hc ▸ List.mem_cons_self c cs)
    have hcs : '\n' ∉ cs := fun hm => h (List.mem_cons_of_mem c hm)
    simp [splitAtNl, hc, ih hcs]

theorem splitAtNl_no_nl {a : Str} (h : '\n' ∉ a) : splitAtNl a = (a, none) := by
  induction a with
  | nil => rfl
  | cons c cs ih =>
    have hc : ¬ c = '\n' := fun hc => h (hc ▸ List.mem_cons_self c cs)
    have hcs : '\n' ∉ cs := fun hm => h (List.mem_cons_of_mem c hm)
    simp [splitAtNl, hc, ih hcs]

theorem matchPipeSeg_append {n : Str} (t : Str) (hn : n ≠ [])
    (hp : '|' ∉ n) :
    matchPipeSeg (n ++ '|' :: t) = some (n.length + 1, n) := by
  rw [matchPipeSeg, splitAtChar_append t hp]
  cases n with
  | nil => exact absurd rfl hn
  | cons c cs => rfl

theorem matchLineNl_append {ns : Str} (t : Str) (hne : ns ≠ [])
    (hnl : '\n' ∉ ns) :
    matchLineNl (ns ++ '\n' :: t) = some (ns.length + 1) := by
  rw [matchLineNl, splitAtNl_append t hnl]
  cases ns with
  | nil => exact absurd rfl hne
  | cons c cs => rfl

theorem takeWhile_append_of_dropWhile_ne {p : Char → Bool} {a : Str}
    (b : Str) (h : a.dropWhile p ≠ []) :
    (a ++ b).takeWhile p = a.takeWhile p := by
  induction a with
  | nil => simp [List.dropWhile] at h
  | cons c cs ih =>
    by_cases hc : p c
    · rw [List.dropWhile_cons_of_pos hc] at h
      rw [List.cons_append, List.takeWhile_cons_of_pos hc,
        List.takeWhile_cons_of_pos hc, ih h]
    · rw [List.cons_append,
        List.takeWhile_cons_of_neg (by simpa using hc),
        List.takeWhile_cons_of_neg (by simpa using hc)]

theorem dropWhile_append_of_dropWhile_ne {p : Char → Bool} {a : Str}
    (b : Str) (h : a.dropWhile p ≠ []) :
    (a ++ b).dropWhile p = a.dropWhile p ++ b := by
  induction a with
  | nil => simp [List.dropWhile] at h
  | cons c cs ih =>
    by_cases hc : p c
    · rw [List.dropWhile_cons_of_pos hc] at h
      rw [List.cons_append, List.dropWhile_cons_of_pos hc,
        List.dropWhile_cons_of_pos hc, ih h]
    · rw [List.cons_append,
        List.dropWhile_cons_of_neg (by simpa using hc),
        List.dropWhile_cons_of_neg (by simpa using hc), List.cons_append]

theorem matchWsLineSeg_append {ns : Str} (t : Str) (hnl : '\n' ∉ ns)
    (hws : ns.dropWhile isWsChar ≠ []) :
    matchWsLineSeg (ns ++ '\n' :: t) =
      some (ns.length, ns.dropWhile isWsChar) := by
  have htake : (ns ++ '\n' :: t).takeWhile isWsChar = ns.takeWhile isWsChar :=
    takeWhile_append_of_dropWhile_ne ('\n' :: t) hws
  have hdroplen : (ns ++ '\n' :: t).drop (ns.takeWhile isWsChar).length =
      ns.dropWhile isWsChar ++ '\n' :: t := by
    conv =>
      lhs
      rw [show ns ++ '\n' :: t =
        ns.takeWhile isWsChar ++ (ns.dropWhile isWsChar ++ '\n' :: t) by
          rw [← List.append_assoc, List.takeWhile_append_dropWhile]]
    exact List.drop_left _ _
  rw [matchWsLineSeg]
  rw [htake, hdroplen]
  have hnl' : '\n' ∉ ns.dropWhile isWsChar := fun hm =>
    hnl ((List.dropWhile_sublist isWsChar).mem hm)
  cases hdw : ns.dropWhile isWsChar with
  | nil => exact absurd hdw hws
  | cons c cs =>
    have hsplit : splitAtNl ((c :: cs) ++ '\n' :: t) = (c :: cs, some t) :=
      splitAtNl_append t (hdw ▸ hnl')
    simp only [List.cons_append] at hsplit ⊢
    rw [hsplit]
    have hlen : (ns.takeWhile isWsChar).length + (c :: cs).length =
        ns.length := by
      have := congrArg List.length
        (@List.takeWhile_append_dropWhile Char isWsChar ns)
      rw [List.length_append, hdw] at this
      simpa using this
    simp only [List.length_cons] at hlen
    simp [hlen]

theorem drop_append_cons (n : Str) (c : Char) (t : Str) :
    (n ++ c :: t).drop (n.length + 1) = t := by
  rw [show n ++ c :: t = (n ++ [c]) ++ t by simp]
  rw [show n.length + 1 = (n ++ [c]).length by simp]
  exact List.drop_left _ _

theorem matchCleanPipeAt_line {kw n ns : Str} (rest : Str)
    (hn : n ≠ []) (hnp : '|' ∉ n) (hnse : ns ≠ []) (hnsnl : '\n' ∉ ns) :
    matchCleanPipeAt kw (kw ++ (n ++ '|' :: (ns ++ '\n' :: rest))) =
      some (kw.length + (n.length + 1) + (ns.length + 1)) := by
  simp only [matchCleanPipeAt, icaseStrip_self_append,
    matchPipeSeg_append (ns ++ '\n' :: rest) hn hnp,
    drop_append_cons n '|' (ns ++ '\n' :: rest),
    matchLineNl_append rest hnse hnsnl]

theorem matchTwoFieldAt_line {kw n ns : Str} (rest : Str)
    (hn : n ≠ []) (hnp : '|' ∉ n) (hnsnl : '\n' ∉ ns)
    (hws : ns.dropWhile isWsChar ≠ []) :
    matchTwoFieldAt kw (kw ++ (n ++ '|' :: (ns ++ '\n' :: rest))) =
      some (kw.length + (n.length + 1) + ns.length,
        (n, ns.dropWhile isWsChar)) := by
  simp only [matchTwoFieldAt, icaseStrip_self_append,
    matchPipeSeg_append (ns ++ '\n' :: rest) hn hnp,
    drop_append_cons n '|' (ns ++ '\n' :: rest),
    matchWsLineSeg_append rest hnsnl hws]

theorem matchOneFieldAt_line {kw a : Str} (rest : Str)
    (hanl : '\n' ∉ a) (hws : a.dropWhile isWsChar ≠ []) :
    matchOneFieldAt kw (kw ++ (a ++ '\n' :: rest)) =
      some (kw.length + a.length, a.dropWhile isWsChar) := by
  simp only [matchOneFieldAt, icaseStrip_self_append,
    matchWsLineSeg_append rest hanl hws]

theorem matchThreeFieldAt_line {kw a b c : Str} (rest : Str)
    (ha : a ≠ []) (hap : '|' ∉ a) (hb : b ≠ []) (hbp : '|' ∉ b)
    (hcnl : '\n' ∉ c) (hcw : c.dropWhile isWsChar ≠ []) :
    matchThreeFieldAt kw
        (kw ++ (a ++ '|' :: (b ++ '|' :: (c ++ '\n' :: rest)))) =
      some (kw.length + (a.length + 1) + (b.length + 1) + c.length,
        (a, b, c.dropWhile isWsChar)) := by
  simp only [matchThreeFieldAt, icaseStrip_self_append,
    matchPipeSeg_append (b ++ '|' :: (c ++ '\n' :: rest)) ha hap,
    drop_append_cons a '|' (b ++ '|' :: (c ++ '\n' :: rest)),
    matchPipeSeg_append (c ++ '\n' :: rest) hb hbp]
  have hd2 : (a ++ '|' :: (b ++ '|' :: (c ++ '\n' :: rest))).drop
      (a.length + 1 + (b.length + 1)) = c ++ '\n' :: rest := by
    rw [show a ++ '|' :: (b ++ '|' :: (c ++ '\n' :: rest)) =
      (a ++ '|' :: b) ++ '|' :: (c ++ '\n' :: rest) by simp]
    rw [show a.length + 1 + (b.length + 1) = (a ++ '|' :: b).length + 1 by
      simp; omega]
    exact drop_append_cons _ '|' _
  simp only [hd2, matchWsLineSeg_append rest hcnl hcw]

theorem matchFourFieldAt_line {kw a b c d : Str} (rest : Str)
    (ha : a ≠ []) (hap : '|' ∉ a) (hb : b ≠ []) (hbp : '|' ∉ b)
    (hc : c ≠ []) (hcp : '|' ∉ c)
    (hdnl : '\n' ∉ d) (hdw : d.dropWhile isWsChar ≠ []) :
    matchFourFieldAt kw
        (kw ++ (a ++ '|' :: (b ++ '|' :: (c ++ '|' :: (d ++ '\n' :: rest))))) =
      some (kw.length + (a.length + 1) + (b.length + 1) + (c.length + 1) +
          d.length,
        (a, b, c, d.dropWhile isWsChar)) := by
  simp only [matchFourFieldAt, icaseStrip_self_append,
    matchPipeSeg_append (b ++ '|' :: (c ++ '|' :: (d ++ '\n' :: rest))) ha hap,
    drop_append_cons a '|' (b ++ '|' :: (c ++ '|' :: (d ++ '\n' :: rest))),
    matchPipeSeg_append (c ++ '|' :: (d ++ '\n' :: rest)) hb hbp]
  have hd2 : (a ++ '|' :: (b ++ '|' :: (c ++ '|' :: (d ++ '\n' :: rest)))).drop
      (a.length + 1 + (b.length + 1)) = c ++ '|' :: (d ++ '\n' :: rest) := by
    rw [show a ++ '|' :: (b ++ '|' :: (c ++ '|' :: (d ++ '\n' :: rest))) =
      (a ++ '|' :: b) ++ '|' :: (c ++ '|' :: (d ++ '\n' :: rest)) by simp]
    rw [show a.length + 1 + (b.length + 1) = (a ++ '|' :: b).length + 1 by
      simp; omega]
    exact drop_append_cons _ '|' _
  simp only [hd2, matchPipeSeg_append (d ++ '\n' :: rest) hc hcp]
  have hd3 : (a ++ '|' :: (b ++ '|' :: (c ++ '|' :: (d ++ '\n' :: rest)))).drop
      (a.length + 1 + (b.length + 1) + (c.length + 1)) = d ++ '\n' :: rest := by
    rw [show a ++ '|' :: (b ++ '|' :: (c ++ '|' :: (d ++ '\n' :: rest))) =
      (a ++ '|' :: (b ++ '|' :: c)) ++ '|' :: (d ++ '\n' :: rest) by simp]
    rw [show a.length + 1 + (b.length + 1) + (c.length + 1) =
      (a ++ '|' :: (b ++ '|' :: c)).length + 1 by simp; omega]
    exact drop_append_cons _ '|' _
  simp only [hd3, matchWsLineSeg_append rest hdnl hdw]

/-! Keyword-occurrence facts needed to drive the scanners across rendered
structured replies. -/

theorem matchCleanPipeAt_isSome (kw : Str) : ∀ cs,
    (matchCleanPipeAt kw cs).isSome = true →
    (icaseStrip kw cs).isSome = true := by
  intro cs h
  rw [matchCleanPipeAt] at h
  cases hs : icaseStrip kw cs with
  | none => rw [hs] at h; simp at h
  | some r => simp [hs]

theorem matchCleanLineAt_isSome (kw : Str) : ∀ cs,
    (matchCleanLineAt kw cs).isSome = true →
    (icaseStrip kw cs).isSome = true := by
  intro cs h
  rw [matchCleanLineAt] at h
  cases hs : icaseStrip kw cs with
  | none => rw [hs] at h; simp at h
  | some r => simp [hs]

theorem matchTwoFieldAt_isSome (kw : Str) : ∀ cs,
    (matchTwoFieldAt kw cs).isSome = true →
    (icaseStrip kw cs).isSome = true := by
  intro cs h
  rw [matchTwoFieldAt] at h
  cases hs : icaseStrip kw cs with
  | none => rw [hs] at h; simp at h
  | some r => simp [hs]

theorem matchOneFieldAt_isSome (kw : Str) : ∀ cs,
    (matchOneFieldAt kw cs).isSome = true →
    (icaseStrip kw cs).isSome = true := by
  intro cs h
  rw [matchOneFieldAt] at h
  cases hs : icaseStrip kw cs with
  | none => rw [hs] at h; simp at h
  | some r => simp [hs]

theorem matchThreeFieldAt_isSome (kw : Str) : ∀ cs,
    (matchThreeFieldAt kw cs).isSome = true →
    (icaseStrip kw cs).isSome = true := by
  intro cs h
  rw [matchThreeFieldAt] at h
  cases hs : icaseStrip kw cs with
  | none => rw [hs] at h; simp at h
  | some r => simp [hs]

theorem matchFourFieldAt_isSome (kw : Str) : ∀ cs,
    (matchFourFieldAt kw cs).isSome = true →
    (icaseStrip kw cs).isSome = true := by
  intro cs h
  rw [matchFourFieldAt] at h
  cases hs : icaseStrip kw cs with
  | none => rw [hs] at h; simp at h
  | some r => simp [hs]

/-! Unpacking the well-formedness booleans. -/

theorem ne_nil_of_isEmpty_false {l : Str} (h : l.isEmpty = false) :
    l ≠ [] := by
  cases l with
  | nil => simp at h
  | cons c cs => exact List.cons_ne_nil c cs

theorem plainOk_noTouch {s kw : Str} (h : plainOk s = true)
    (hkw : kw ∈ allKws) : noTouch kw s = true := by
  rw [plainOk, List.all_eq_true] at h
  exact h kw hkw

theorem fieldOk_pipe {s : Str} (h : fieldOk s = true) : '|' ∉ s := by
  rw [fieldOk] at h
  simp only [Bool.and_eq_true, decide_eq_true_eq] at h
  exact h.1.1.1

theorem fieldOk_nl {s : Str} (h : fieldOk s = true) : '\n' ∉ s := by
  rw [fieldOk] at h
  simp only [Bool.and_eq_true, decide_eq_true_eq] at h
  exact h.1.1.2

theorem fieldOk_ws {s : Str} (h : fieldOk s = true) :
    s.dropWhile isWsChar ≠ [] := by
  rw [fieldOk] at h
  simp only [Bool.and_eq_true, decide_eq_true_eq] at h
  exact ne_nil_of_isEmpty_false (by
    cases hz : (s.dropWhile isWsChar).isEmpty with
    | false => rfl
    | true => rw [hz] at h; rcases h with ⟨⟨_, hfalse⟩, _⟩; simp at hfalse)

theorem fieldOk_ne_nil {s : Str} (h : fieldOk s = true) : s ≠ [] := by
  intro hs
  exact fieldOk_ws h (by rw [hs]; rfl)

theorem fieldOk_noTouch {s kw : Str} (h : fieldOk s = true)
    (hkw : kw ∈ allKws) : noTouch kw s = true := by
  rw [fieldOk] at h
  simp only [Bool.and_eq_true] at h
  exact plainOk_noTouch h.2 hkw

/-! NoTouch for whole rendered parts that a given scanner must skip. -/

theorem noTouch_line2_render {kw : Str} {k : Marker} {n ns : Str}
    (hmk : noTouch kw k.str = true) (hn : noTouch kw n = true)
    (hns : noTouch kw ns = true) (hp : noTouch kw ['|'] = true)
    (hnl : noTouch kw ['\n'] = true) :
    noTouch kw ((RPart.line2 k n ns).render) = true := by
  simp only [RPart.render]
  rw [List.append_assoc]
  show noTouch kw (k.str ++ (n ++ '|' :: (ns ++ ['\n']))) = true
  refine noTouch_append hmk (noTouch_append hn ?_)
  show noTouch kw (['|'] ++ (ns ++ ['\n'])) = true
  exact noTouch_append hp (noTouch_append hns hnl)

theorem noTouch_lineG3_render {kw : Str} {a b c : Str}
    (hmk : noTouch kw kwGC = true) (ha : noTouch kw a = true)
    (hb : noTouch kw b = true) (hc : noTouch kw c = true)
    (hp : noTouch kw ['|'] = true) (hnl : noTouch kw ['\n'] = true) :
    noTouch kw ((RPart.lineG3 a b c).render) = true := by
  simp only [RPart.render]
  rw [List.append_assoc]
  show noTouch kw (kwGC ++ (a ++ '|' :: (b ++ '|' :: (c ++ ['\n'])))) = true
  refine noTouch_append hmk (noTouch_append ha ?_)
  show noTouch kw (['|'] ++ (b ++ '|' :: (c ++ ['\n']))) = true
  refine noTouch_append hp (noTouch_append hb ?_)
  show noTouch kw (['|'] ++ (c ++ ['\n'])) = true
  exact noTouch_append hp (noTouch_append hc hnl)

theorem noTouch_lineG4_render {kw : Str} {a b c d : Str}
    (hmk : noTouch kw kwGU = true) (ha : noTouch kw a = true)
    (hb : noTouch kw b = true) (hc : noTouch kw c = true)
    (hd : noTouch kw d = true)
    (hp : noTouch kw ['|'] = true) (hnl : noTouch kw ['\n'] = true) :
    noTouch kw ((RPart.lineG4 a b c d).render) = true := by
  simp only [RPart.render]
  rw [List.append_assoc]
  show noTouch kw
    (kwGU ++ (a ++ '|' :: (b ++ '|' :: (c ++ '|' :: (d ++ ['\n']))))) = true
  refine noTouch_append hmk (noTouch_append ha ?_)
  show noTouch kw (['|'] ++ (b ++ '|' :: (c ++ '|' :: (d ++ ['\n'])))) = true
  refine noTouch_append hp (noTouch_append hb ?_)
  show noTouch kw (['|'] ++ (c ++ '|' :: (d ++ ['\n']))) = true
  refine noTouch_append hp (noTouch_append hc ?_)
  show noTouch kw (['|'] ++ (d ++ ['\n'])) = true
  exact noTouch_append hp (noTouch_append hd hnl)

theorem noTouch_lineT_render {kw : Str} {a : Str}
    (hmk : noTouch kw kwTT = true) (ha : noTouch kw a = true)
    (hnl : noTouch kw ['\n'] = true) :
    noTouch kw ((RPart.lineT a).render) = true := by
  simp only [RPart.render]
  rw [List.append_assoc]
  show noTouch kw (kwTT ++ (a ++ ['\n'])) = true
  exact noTouch_append hmk (noTouch_append ha hnl)

theorem drop_line2_render (kw n ns rest : Str) :
    (kw ++ (n ++ '|' :: (ns ++ '\n' :: rest))).drop
      (kw.length + (n.length + 1) + (ns.length + 1)) = rest := by
  rw [show kw ++ (n ++ '|' :: (ns ++ '\n' :: rest)) =
    (kw ++ (n ++ '|' :: (ns ++ ['\n']))) ++ rest by simp]
  rw [show kw.length + (n.length + 1) + (ns.length + 1) =
    (kw ++ (n ++ '|' :: (ns ++ ['\n']))).length by simp; omega]
  exact List.drop_left _ _

theorem renderAll_cons (p : RPart) (ps : List RPart) :
    renderAll (p :: ps) = p.render ++ renderAll ps := rfl

theorem length_pos_of_ne_nil {l : Str} (h : l ≠ []) : 0 < l.length := by
  cases l with
  | nil => exact absurd rfl h
  | cons c cs => simp

theorem append_ne_nil_left {l r : Str} (h : l ≠ []) : l ++ r ≠ [] := by
  cases l with
  | nil => exact absurd rfl h
  | cons c cs => simp

theorem strip_renderAll (kw : Str) (hkw : kw ∈ allKws) (hkwne : kw ≠ [])
    (hcross : ∀ m : Marker, m.str ≠ kw → noTouch kw m.str = true)
    (hsep : noTouch kw ['|'] = true) (hnl : noTouch kw ['\n'] = true)
    (hgc : kwGC ≠ kw) (hgu : kwGU ≠ kw) (htt : kwTT ≠ kw) :
    ∀ ps : List RPart, (∀ p ∈ ps, PartOk p = true) →
      stripGo (matchCleanPipeAt kw) (renderAll ps) 0 =
        renderAll (ps.filter (fun p => !(RPart.isLine2Of kw p))) := by
  intro ps
  induction ps with
  | nil => intro _; rfl
  | cons p ps ih =>
    intro h
    have hp := h p (List.mem_cons_self p ps)
    have hps : ∀ q ∈ ps, PartOk q = true :=
      fun q hq => h q (List.mem_cons_of_mem p hq)
    rw [renderAll_cons]
    cases p with
    | plain s =>
      have hnt : noTouch kw s = true :=
        plainOk_noTouch (by simpa [PartOk] using hp) hkw
      rw [show (RPart.plain s).render = s from rfl,
        stripGo_noTouch_append _ kw hkwne (matchCleanPipeAt_isSome kw)
          s (renderAll ps) hnt,
        ih hps,
        List.filter_cons_of_pos (by simp [RPart.isLine2Of]),
        renderAll_cons]
      simp [RPart.render]
    | line2 k n ns =>
      have hp' : fieldOk n = true ∧ fieldOk ns = true := by
        simp only [PartOk, Bool.and_eq_true] at hp
        exact ⟨hp.1.2, hp.2⟩
      by_cases hkval : k.str = kw
      · have heq : (RPart.line2 k n ns).render ++ renderAll ps =
            kw ++ (n ++ '|' :: (ns ++ '\n' :: renderAll ps)) := by
          simp [RPart.render, hkval]
        rw [heq]
        rw [stripGo_match_drop _
          (matchCleanPipeAt_line (renderAll ps)
            (fieldOk_ne_nil hp'.1) (fieldOk_pipe hp'.1)
            (fieldOk_ne_nil hp'.2) (fieldOk_nl hp'.2))
          (by have := length_pos_of_ne_nil hkwne; omega)
          (append_ne_nil_left hkwne)]
        rw [drop_line2_render kw n ns (renderAll ps), ih hps]
        rw [List.filter_cons_of_neg (by simp [RPart.isLine2Of, hkval])]
      · have hmk : noTouch kw k.str = true := hcross k hkval
        rw [stripGo_noTouch_append _ kw hkwne (matchCleanPipeAt_isSome kw)
          _ (renderAll ps)
          (noTouch_line2_render hmk (fieldOk_noTouch hp'.1 hkw)
            (fieldOk_noTouch hp'.2 hkw) hsep hnl),
          ih hps,
          List.filter_cons_of_pos (by
            simp only [RPart.isLine2Of, Bool.not_eq_true']
            exact beq_eq_false_iff_ne.mpr hkval),
          renderAll_cons]
    | lineG3 a b c =>
      have hp' : fieldOk a = true ∧ fieldOk b = true ∧ fieldOk c = true := by
        simp only [PartOk, Bool.and_eq_true] at hp
        exact ⟨hp.1.1, hp.1.2, hp.2⟩
      have hmk : noTouch kw kwGC = true := by
        have := hcross Marker.goalConfirmed (by simpa [Marker.str] using hgc)
        simpa [Marker.str] using this
      rw [stripGo_noTouch_append _ kw hkwne (matchCleanPipeAt_isSome kw)
        _ (renderAll ps)
        (noTouch_lineG3_render hmk (fieldOk_noTouch hp'.1 hkw)
          (fieldOk_noTouch hp'.2.1 hkw) (fieldOk_noTouch hp'.2.2 hkw)
          hsep hnl),
        ih hps,
        List.filter_cons_of_pos (by simp [RPart.isLine2Of]),
        renderAll_cons]
    | lineG4 a b c d =>
      have hp' : fieldOk a = true ∧ fieldOk b = true ∧ fieldOk c = true ∧
          fieldOk d = true := by
        simp only [PartOk, Bool.and_eq_true] at hp
        exact ⟨hp.1.1.1, hp.1.1.2, hp.1.2, hp.2⟩
      have hmk : noTouch kw kwGU = true := by
        have := hcross Marker.goalUpdated (by simpa [Marker.str] using hgu)
        simpa [Marker.str] using this
      rw [stripGo_noTouch_append _ kw hkwne (matchCleanPipeAt_isSome kw)
        _ (renderAll ps)
        (noTouch_lineG4_render hmk (fieldOk_noTouch hp'.1 hkw)
          (fieldOk_noTouch hp'.2.1 hkw) (fieldOk_noTouch hp'.2.2.1 hkw)
          (fieldOk_noTouch hp'.2.2.2 hkw) hsep hnl),
        ih hps,
        List.filter_cons_of_pos (by simp [RPart.isLine2Of]),
        renderAll_cons]
    | lineT a =>
      have hp' : fieldOk a = true := by simpa [PartOk] using hp
      have hmk : noTouch kw kwTT = true := by
        have := hcross Marker.transitionToGoals (by simpa [Marker.str] using htt)
        simpa [Marker.str] using this
      rw [stripGo_noTouch_append _ kw hkwne (matchCleanPipeAt_isSome kw)
        _ (renderAll ps)
        (noTouch_lineT_render hmk (fieldOk_noTouch hp' hkw) hnl),
        ih hps,
        List.filter_cons_of_pos (by simp [RPart.isLine2Of]),
        renderAll_cons]

theorem noTouch_renderAll (kw : Str) (hkw : kw ∈ allKws)
    (hcross : ∀ m : Marker, noTouch kw m.str = true)
    (hsep : noTouch kw ['|'] = true) (hnl : noTouch kw ['\n'] = true) :
    ∀ ps : List RPart, (∀ p ∈ ps, PartOk p = true) →
      noTouch kw (renderAll ps) = true := by
  intro ps
  induction ps with
  | nil => intro _; rfl
  | cons p ps ih =>
    intro h
    have hp := h p (List.mem_cons_self p ps)
    have hps : ∀ q ∈ ps, PartOk q = true :=
      fun q hq => h q (List.mem_cons_of_mem p hq)
    rw [renderAll_cons]
    refine noTouch_append ?_ (ih hps)
    cases p with
    | plain s =>
      simpa [RPart.render] using plainOk_noTouch (by simpa [PartOk] using hp) hkw
    | line2 k n ns =>
      have hp' : fieldOk n = true ∧ fieldOk ns = true := by
        simp only [PartOk, Bool.and_eq_true] at hp
        exact ⟨hp.1.2, hp.2⟩
      exact noTouch_line2_render (hcross k) (fieldOk_noTouch hp'.1 hkw)
        (fieldOk_noTouch hp'.2 hkw) hsep hnl
    | lineG3 a b c =>
      have hp' : fieldOk a = true ∧ fieldOk b = true ∧ fieldOk c = true := by
        simp only [PartOk, Bool.and_eq_true] at hp
        exact ⟨hp.1.1, hp.1.2, hp.2⟩
      have hmk : noTouch kw kwGC = true := by
        have := hcross Marker.goalConfirmed
        simpa [Marker.str] using this
      exact noTouch_lineG3_render hmk (fieldOk_noTouch hp'.1 hkw)
        (fieldOk_noTouch hp'.2.1 hkw) (fieldOk_noTouch hp'.2.2 hkw) hsep hnl
    | lineG4 a b c d =>
      have hp' : fieldOk a = true ∧ fieldOk b = true ∧ fieldOk c = true ∧
          fieldOk d = true := by
        simp only [PartOk, Bool.and_eq_true] at hp
        exact ⟨hp.1.1.1, hp.1.1.2, hp.1.2, hp.2⟩
      have hmk : noTouch kw kwGU = true := by
        have := hcross Marker.goalUpdated
        simpa [Marker.str] using this
      exact noTouch_lineG4_render hmk (fieldOk_noTouch hp'.1 hkw)
        (fieldOk_noTouch hp'.2.1 hkw) (fieldOk_noTouch hp'.2.2.1 hkw)
        (fieldOk_noTouch hp'.2.2.2 hkw) hsep hnl
    | lineT a =>
      have hp' : fieldOk a = true := by simpa [PartOk] using hp
      have hmk : noTouch kw kwTT = true := by
        have := hcross Marker.transitionToGoals
        simpa [Marker.str] using this
      exact noTouch_lineT_render hmk (fieldOk_noTouch hp' hkw) hnl

theorem PartOk_filter (f : RPart → Bool) {ps : List RPart}
    (h : ∀ p ∈ ps, PartOk p = true) :
    ∀ p ∈ ps.filter f, PartOk p = true :=
  fun p hp => h p (List.mem_of_mem_filter hp)

/-- `BaseAgent.cleanResponseForUser` over a well-formed structured reply:
the PERSONA_CONFIRMED lines disappear, every other part survives, and the
result is trimmed. -/
theorem baseClean_renderAll (ps : List RPart)
    (h : ∀ p ∈ ps, PartOk p = true) :
    BaseAgent.cleanResponseForUser (renderAll ps) =
      jsTrim (renderAll (ps.filter (fun p => !(RPart.isLine2Of kwPC p)))) := by
  rw [BaseAgent.cleanResponseForUser]
  rw [show jsReplaceAll (matchCleanPipeAt kwPC) (renderAll ps) =
    stripGo (matchCleanPipeAt kwPC) (renderAll ps) 0 from rfl]
  rw [strip_renderAll kwPC (by simp [allKws]) (by decide)
    (by intro m hm; revert hm; cases m <;> decide)
    (by decide) (by decide) (by decide) (by decide) (by decide) ps h]
  have hres : ∀ p ∈ ps.filter (fun p => !(RPart.isLine2Of kwPC p)),
      PartOk p = true := PartOk_filter _ h
  rw [show jsReplaceAll (matchCleanLineAt kwRN)
      (renderAll (ps.filter (fun p => !(RPart.isLine2Of kwPC p)))) =
      renderAll (ps.filter (fun p => !(RPart.isLine2Of kwPC p))) from
    stripGo_noTouch_self _ kwRN (by decide) (matchCleanLineAt_isSome kwRN)
      (noTouch_renderAll kwRN (by simp [allKws])
        (by intro m; cases m <;> decide) (by decide) (by decide) _ hres)]
  rw [show jsReplaceAll (matchCleanPipeAt kwVP)
      (renderAll (ps.filter (fun p => !(RPart.isLine2Of kwPC p)))) =
      renderAll (ps.filter (fun p => !(RPart.isLine2Of kwPC p))) from
    stripGo_noTouch_self _ kwVP (by decide) (matchCleanPipeAt_isSome kwVP)
      (noTouch_renderAll kwVP (by simp [allKws])
        (by intro m; cases m <;> decide) (by decide) (by decide) _ hres)]

theorem drop_line2_scan (kw n ns rest : Str) :
    (kw ++ (n ++ '|' :: (ns ++ '\n' :: rest))).drop
      (kw.length + (n.length + 1) + ns.length) = '\n' :: rest := by
  rw [show kw ++ (n ++ '|' :: (ns ++ '\n' :: rest)) =
    (kw ++ (n ++ '|' :: ns)) ++ '\n' :: rest by simp]
  rw [show kw.length + (n.length + 1) + ns.length =
    (kw ++ (n ++ '|' :: ns)).length by simp; omega]
  exact List.drop_left _ _

theorem drop_lineG3_scan (kw a b c rest : Str) :
    (kw ++ (a ++ '|' :: (b ++ '|' :: (c ++ '\n' :: rest)))).drop
      (kw.length + (a.length + 1) + (b.length + 1) + c.length) =
      '\n' :: rest := by
  rw [show kw ++ (a ++ '|' :: (b ++ '|' :: (c ++ '\n' :: rest))) =
    (kw ++ (a ++ '|' :: (b ++ '|' :: c))) ++ '\n' :: rest by simp]
  rw [show kw.length + (a.length + 1) + (b.length + 1) + c.length =
    (kw ++ (a ++ '|' :: (b ++ '|' :: c))).length by simp; omega]
  exact List.drop_left _ _

theorem drop_lineG4_scan (kw a b c d rest : Str) :
    (kw ++ (a ++ '|' :: (b ++ '|' :: (c ++ '|' :: (d ++ '\n' :: rest))))).drop
      (kw.length + (a.length + 1) + (b.length + 1) + (c.length + 1) +
        d.length) = '\n' :: rest := by
  rw [show kw ++ (a ++ '|' :: (b ++ '|' :: (c ++ '|' :: (d ++ '\n' :: rest)))) =
    (kw ++ (a ++ '|' :: (b ++ '|' :: (c ++ '|' :: d)))) ++ '\n' :: rest by simp]
  rw [show kw.length + (a.length + 1) + (b.length + 1) + (c.length + 1) +
      d.length = (kw ++ (a ++ '|' :: (b ++ '|' :: (c ++ '|' :: d)))).length by
    simp; omega]
  exact List.drop_left _ _

/-- What the PERSONA_CONFIRMED/REFINED_PERSONA parse scan extracts from one
part: the raw first field and the whitespace-stripped second capture. -/
def twoFieldCapture (kw : Str) : RPart → Option (Str × Str)
  | RPart.line2 k n ns =>
    if k.str = kw then some (n, ns.dropWhile isWsChar) else none
  | _ => none

theorem scanTwo_renderAll (kw : Str) (hkw : kw ∈ allKws) (hkwne : kw ≠ [])
    (hcross : ∀ m : Marker, m.str ≠ kw → noTouch kw m.str = true)
    (hsep : noTouch kw ['|'] = true) (hnl : noTouch kw ['\n'] = true)
    (hgc : kwGC ≠ kw) (hgu : kwGU ≠ kw) (htt : kwTT ≠ kw) :
    ∀ ps : List RPart, (∀ p ∈ ps, PartOk p = true) →
      regexScan (matchTwoFieldAt kw) (renderAll ps) =
        ps.filterMap (twoFieldCapture kw) := by
  intro ps
  induction ps with
  | nil => intro _; rfl
  | cons p ps ih =>
    intro h
    have hp := h p (List.mem_cons_self p ps)
    have hps : ∀ q ∈ ps, PartOk q = true :=
      fun q hq => h q (List.mem_cons_of_mem p hq)
    rw [show regexScan (matchTwoFieldAt kw) (renderAll (p :: ps)) =
      scanGo (matchTwoFieldAt kw) (p.render ++ renderAll ps) 0 from rfl]
    cases p with
    | plain s =>
      have hnt : noTouch kw s = true :=
        plainOk_noTouch (by simpa [PartOk] using hp) hkw
      rw [show (RPart.plain s).render = s from rfl,
        scanGo_noTouch_append _ kw hkwne (matchTwoFieldAt_isSome kw)
          s (renderAll ps) hnt]
      rw [show scanGo (matchTwoFieldAt kw) (renderAll ps) 0 =
        regexScan (matchTwoFieldAt kw) (renderAll ps) from rfl, ih hps]
      rw [List.filterMap_cons_none (by simp [twoFieldCapture])]
    | line2 k n ns =>
      have hp' : fieldOk n = true ∧ fieldOk ns = true := by
        simp only [PartOk, Bool.and_eq_true] at hp
        exact ⟨hp.1.2, hp.2⟩
      by_cases hkval : k.str = kw
      · have heq : (RPart.line2 k n ns).render ++ renderAll ps =
            kw ++ (n ++ '|' :: (ns ++ '\n' :: renderAll ps)) := by
          simp [RPart.render, hkval]
        rw [heq]
        rw [scanGo_match_drop _
          (matchTwoFieldAt_line (renderAll ps)
            (fieldOk_ne_nil hp'.1) (fieldOk_pipe hp'.1)
            (fieldOk_nl hp'.2) (fieldOk_ws hp'.2))
          (by have := length_pos_of_ne_nil hkwne; omega)
          (append_ne_nil_left hkwne)]
        rw [drop_line2_scan kw n ns (renderAll ps)]
        rw [show ('\n' :: renderAll ps) = ['\n'] ++ renderAll ps from rfl,
          scanGo_noTouch_append _ kw hkwne (matchTwoFieldAt_isSome kw)
            ['\n'] (renderAll ps) hnl]
        rw [show scanGo (matchTwoFieldAt kw) (renderAll ps) 0 =
          regexScan (matchTwoFieldAt kw) (renderAll ps) from rfl, ih hps]
        rw [List.filterMap_cons_some (show twoFieldCapture kw
          (RPart.line2 k n ns) = some (n, ns.dropWhile isWsChar) by
            simp [twoFieldCapture, hkval])]
      · have hmk : noTouch kw k.str = true := hcross k hkval
        rw [scanGo_noTouch_append _ kw hkwne (matchTwoFieldAt_isSome kw)
          _ (renderAll ps)
          (noTouch_line2_render hmk (fieldOk_noTouch hp'.1 hkw)
            (fieldOk_noTouch hp'.2 hkw) hsep hnl)]
        rw [show scanGo (matchTwoFieldAt kw) (renderAll ps) 0 =
          regexScan (matchTwoFieldAt kw) (renderAll ps) from rfl, ih hps]
        rw [List.filterMap_cons_none (by simp [twoFieldCapture, hkval])]
    | lineG3 a b c =>
      have hp' : fieldOk a = true ∧ fieldOk b = true ∧ fieldOk c = true := by
        simp only [PartOk, Bool.and_eq_true] at hp
        exact ⟨hp.1.1, hp.1.2, hp.2⟩
      have hmk : noTouch kw kwGC = true := by
        have := hcross Marker.goalConfirmed (by simpa [Marker.str] using hgc)
        simpa [Marker.str] using this
      rw [scanGo_noTouch_append _ kw hkwne (matchTwoFieldAt_isSome kw)
        _ (renderAll ps)
        (noTouch_lineG3_render hmk (fieldOk_noTouch hp'.1 hkw)
          (fieldOk_noTouch hp'.2.1 hkw) (fieldOk_noTouch hp'.2.2 hkw)
          hsep hnl)]
      rw [show scanGo (matchTwoFieldAt kw) (renderAll ps) 0 =
        regexScan (matchTwoFieldAt kw) (renderAll ps) from rfl, ih hps]
      rw [List.filterMap_cons_none (by simp [twoFieldCapture])]
    | lineG4 a b c d =>
      have hp' : fieldOk a = true ∧ fieldOk b = true ∧ fieldOk c = true ∧
          fieldOk d = true := by
        simp only [PartOk, Bool.and_eq_true] at hp
        exact ⟨hp.1.1.1, hp.1.1.2, hp.1.2, hp.2⟩
      have hmk : noTouch kw kwGU = true := by
        have := hcross Marker.goalUpdated (by simpa [Marker.str] using hgu)
        simpa [Marker.str] using this
      rw [scanGo_noTouch_append _ kw hkwne (matchTwoFieldAt_isSome kw)
        _ (renderAll ps)
        (noTouch_lineG4_render hmk (fieldOk_noTouch hp'.1 hkw)
          (fieldOk_noTouch hp'.2.1 hkw) (fieldOk_noTouch hp'.2.2.1 hkw)
          (fieldOk_noTouch hp'.2.2.2 hkw) hsep hnl)]
      rw [show scanGo (matchTwoFieldAt kw) (renderAll ps) 0 =
        regexScan (matchTwoFieldAt kw) (renderAll ps) from rfl, ih hps]
      rw [List.filterMap_cons_none (by simp [twoFieldCapture])]
    | lineT a =>
      have hp' : fieldOk a = true := by simpa [PartOk] using hp
      have hmk : noTouch kw kwTT = true := by
        have := hcross Marker.transitionToGoals (by simpa [Marker.str] using htt)
        simpa [Marker.str] using this
      rw [scanGo_noTouch_append _ kw hkwne (matchTwoFieldAt_isSome kw)
        _ (renderAll ps)
        (noTouch_lineT_render hmk (fieldOk_noTouch hp' hkw) hnl)]
      rw [show scanGo (matchTwoFieldAt kw) (renderAll ps) 0 =
        regexScan (matchTwoFieldAt kw) (renderAll ps) from rfl, ih hps]
      rw [List.filterMap_cons_none (by simp [twoFieldCapture])]

/-- What the GOAL_CONFIRMED parse scan extracts from one part. -/
def threeFieldCapture : RPart → Option (Str × Str × Str)
  | RPart.lineG3 a b c => some (a, b, c.dropWhile isWsChar)
  | _ => none

/-- What the GOAL_UPDATED parse scan extracts from one part. -/
def fourFieldCapture : RPart → Option (Str × Str × Str × Str)
  | RPart.lineG4 a b c d => some (a, b, c, d.dropWhile isWsChar)
  | _ => none

theorem scanThree_renderAll :
    ∀ ps : List RPart, (∀ p ∈ ps, PartOk p = true) →
      regexScan (matchThreeFieldAt kwGC) (renderAll ps) =
        ps.filterMap threeFieldCapture := by
  intro ps
  induction ps with
  | nil => intro _; rfl
  | cons p ps ih =>
    intro h
    have hp := h p (List.mem_cons_self p ps)
    have hps : ∀ q ∈ ps, PartOk q = true :=
      fun q hq => h q (List.mem_cons_of_mem p hq)
    rw [show regexScan (matchThreeFieldAt kwGC) (renderAll (p :: ps)) =
      scanGo (matchThreeFieldAt kwGC) (p.render ++ renderAll ps) 0 from rfl]
    cases p with
    | plain s =>
      have hnt : noTouch kwGC s = true :=
        plainOk_noTouch (by simpa [PartOk] using hp) (by simp [allKws])
      rw [show (RPart.plain s).render = s from rfl,
        scanGo_noTouch_append _ kwGC (by decide)
          (matchThreeFieldAt_isSome kwGC) s (renderAll ps) hnt]
      rw [show scanGo (matchThreeFieldAt kwGC) (renderAll ps) 0 =
        regexScan (matchThreeFieldAt kwGC) (renderAll ps) from rfl, ih hps]
      rw [List.filterMap_cons_none (by simp [threeFieldCapture])]
    | line2 k n ns =>
      have hp' : fieldOk n = true ∧ fieldOk ns = true := by
        simp only [PartOk, Bool.and_eq_true] at hp
        exact ⟨hp.1.2, hp.2⟩
      have hmk : noTouch kwGC k.str = true := by
        simp only [PartOk, Bool.and_eq_true, Bool.or_eq_true, beq_iff_eq] at hp
        rcases hp.1.1 with ⟨⟨hk | hk⟩ | hk⟩ | hk <;> subst hk <;> decide
      rw [scanGo_noTouch_append _ kwGC (by decide)
        (matchThreeFieldAt_isSome kwGC) _ (renderAll ps)
        (noTouch_line2_render hmk
          (fieldOk_noTouch hp'.1 (by simp [allKws]))
          (fieldOk_noTouch hp'.2 (by simp [allKws]))
          (by decide) (by decide))]
      rw [show scanGo (matchThreeFieldAt kwGC) (renderAll ps) 0 =
        regexScan (matchThreeFieldAt kwGC) (renderAll ps) from rfl, ih hps]
      rw [List.filterMap_cons_none (by simp [threeFieldCapture])]
    | lineG3 a b c =>
      have hp' : fieldOk a = true ∧ fieldOk b = true ∧ fieldOk c = true := by
        simp only [PartOk, Bool.and_eq_true] at hp
        exact ⟨hp.1.1, hp.1.2, hp.2⟩
      have heq : (RPart.lineG3 a b c).render ++ renderAll ps =
          kwGC ++ (a ++ '|' :: (b ++ '|' :: (c ++ '\n' :: renderAll ps))) := by
        simp [RPart.render]
      rw [heq]
      rw [scanGo_match_drop _
        (matchThreeFieldAt_line (renderAll ps)
          (fieldOk_ne_nil hp'.1) (fieldOk_pipe hp'.1)
          (fieldOk_ne_nil hp'.2.1) (fieldOk_pipe hp'.2.1)
          (fieldOk_nl hp'.2.2) (fieldOk_ws hp'.2.2))
        (by omega)
        (append_ne_nil_left (by decide))]
      rw [drop_lineG3_scan kwGC a b c (renderAll ps)]
      rw [show ('\n' :: renderAll ps) = ['\n'] ++ renderAll ps from rfl,
        scanGo_noTouch_append _ kwGC (by decide)
          (matchThreeFieldAt_isSome kwGC) ['\n'] (renderAll ps) (by decide)]
      rw [show scanGo (matchThreeFieldAt kwGC) (renderAll ps) 0 =
        regexScan (matchThreeFieldAt kwGC) (renderAll ps) from rfl, ih hps]
      rw [List.filterMap_cons_some (show threeFieldCapture
        (RPart.lineG3 a b c) = some (a, b, c.dropWhile isWsChar) by
          simp [threeFieldCapture])]
    | lineG4 a b c d =>
      have hp' : fieldOk a = true ∧ fieldOk b = true ∧ fieldOk c = true ∧
          fieldOk d = true := by
        simp only [PartOk, Bool.and_eq_true] at hp
        exact ⟨hp.1.1.1, hp.1.1.2, hp.1.2, hp.2⟩
      rw [scanGo_noTouch_append _ kwGC (by decide)
        (matchThreeFieldAt_isSome kwGC) _ (renderAll ps)
        (noTouch_lineG4_render (by decide)
          (fieldOk_noTouch hp'.1 (by simp [allKws]))
          (fieldOk_noTouch hp'.2.1 (by simp [allKws]))
          (fieldOk_noTouch hp'.2.2.1 (by simp [allKws]))
          (fieldOk_noTouch hp'.2.2.2 (by simp [allKws]))
          (by decide) (by decide))]
      rw [show scanGo (matchThreeFieldAt kwGC) (renderAll ps) 0 =
        regexScan (matchThreeFieldAt kwGC) (renderAll ps) from rfl, ih hps]
      rw [List.filterMap_cons_none (by simp [fourFieldCapture, threeFieldCapture])]
    | lineT a =>
      have hp' : fieldOk a = true := by simpa [PartOk] using hp
      rw [scanGo_noTouch_append _ kwGC (by decide)
        (matchThreeFieldAt_isSome kwGC) _ (renderAll ps)
        (noTouch_lineT_render (by decide)
          (fieldOk_noTouch hp' (by simp [allKws])) (by decide))]
      rw [show scanGo (matchThreeFieldAt kwGC) (renderAll ps) 0 =
        regexScan (matchThreeFieldAt kwGC) (renderAll ps) from rfl, ih hps]
      rw [List.filterMap_cons_none (by simp [threeFieldCapture])]

theorem scanFour_renderAll :
    ∀ ps : List RPart, (∀ p ∈ ps, PartOk p = true) →
      regexScan (matchFourFieldAt kwGU) (renderAll ps) =
        ps.filterMap fourFieldCapture := by
  intro ps
  induction ps with
  | nil => intro _; rfl
  | cons p ps ih =>
    intro h
    have hp := h p (List.mem_cons_self p ps)
    have hps : ∀ q ∈ ps, PartOk q = true :=
      fun q hq => h q (List.mem_cons_of_mem p hq)
    rw [show regexScan (matchFourFieldAt kwGU) (renderAll (p :: ps)) =
      scanGo (matchFourFieldAt kwGU) (p.render ++ renderAll ps) 0 from rfl]
    cases p with
    | plain s =>
      have hnt : noTouch kwGU s = true :=
        plainOk_noTouch (by simpa [PartOk] using hp) (by simp [allKws])
      rw [show (RPart.plain s).render = s from rfl,
        scanGo_noTouch_append _ kwGU (by decide)
          (matchFourFieldAt_isSome kwGU) s (renderAll ps) hnt]
      rw [show scanGo (matchFourFieldAt kwGU) (renderAll ps) 0 =
        regexScan (matchFourFieldAt kwGU) (renderAll ps) from rfl, ih hps]
      rw [List.filterMap_cons_none (by simp [fourFieldCapture])]
    | line2 k n ns =>
      have hp' : fieldOk n = true ∧ fieldOk ns = true := by
        simp only [PartOk, Bool.and_eq_true] at hp
        exact ⟨hp.1.2, hp.2⟩
      have hmk : noTouch kwGU k.str = true := by
        simp only [PartOk, Bool.and_eq_true, Bool.or_eq_true, beq_iff_eq] at hp
        rcases hp.1.1 with ⟨⟨hk | hk⟩ | hk⟩ | hk <;> subst hk <;> decide
      rw [scanGo_noTouch_append _ kwGU (by decide)
        (matchFourFieldAt_isSome kwGU) _ (renderAll ps)
        (noTouch_line2_render hmk
          (fieldOk_noTouch hp'.1 (by simp [allKws]))
          (fieldOk_noTouch hp'.2 (by simp [allKws]))
          (by decide) (by decide))]
      rw [show scanGo (matchFourFieldAt kwGU) (renderAll ps) 0 =
        regexScan (matchFourFieldAt kwGU) (renderAll ps) from rfl, ih hps]
      rw [List.filterMap_cons_none (by simp [fourFieldCapture])]
    | lineG3 a b c =>
      have hp' : fieldOk a = true ∧ fieldOk b = true ∧ fieldOk c = true := by
        simp only [PartOk, Bool.and_eq_true] at hp
        exact ⟨hp.1.1, hp.1.2, hp.2⟩
      rw [scanGo_noTouch_append _ kwGU (by decide)
        (matchFourFieldAt_isSome kwGU) _ (renderAll ps)
        (noTouch_lineG3_render (by decide)
          (fieldOk_noTouch hp'.1 (by simp [allKws]))
          (fieldOk_noTouch hp'.2.1 (by simp [allKws]))
          (fieldOk_noTouch hp'.2.2 (by simp [allKws]))
          (by decide) (by decide))]
      rw [show scanGo (matchFourFieldAt kwGU) (renderAll ps) 0 =
        regexScan (matchFourFieldAt kwGU) (renderAll ps) from rfl, ih hps]
      rw [List.filterMap_cons_none (by simp [fourFieldCapture])]
    | lineG4 a b c d =>
      have hp' : fieldOk a = true ∧ fieldOk b = true ∧ fieldOk c = true ∧
          fieldOk d = true := by
        simp only [PartOk, Bool.and_eq_true] at hp
        exact ⟨hp.1.1.1, hp.1.1.2, hp.1.2, hp.2⟩
      have heq : (RPart.lineG4 a b c d).render ++ renderAll ps =
          kwGU ++ (a ++ '|' :: (b ++ '|' :: (c ++ '|' ::
            (d ++ '\n' :: renderAll ps)))) := by
        simp [RPart.render]
      rw [heq]
      rw [scanGo_match_drop _
        (matchFourFieldAt_line (renderAll ps)
          (fieldOk_ne_nil hp'.1) (fieldOk_pipe hp'.1)
          (fieldOk_ne_nil hp'.2.1) (fieldOk_pipe hp'.2.1)
          (fieldOk_ne_nil hp'.2.2.1) (fieldOk_pipe hp'.2.2.1)
          (fieldOk_nl hp'.2.2.2) (fieldOk_ws hp'.2.2.2))
        (by omega)
        (append_ne_nil_left (by decide))]
      rw [drop_lineG4_scan kwGU a b c d (renderAll ps)]
      rw [show ('\n' :: renderAll ps) = ['\n'] ++ renderAll ps from rfl,
        scanGo_noTouch_append _ kwGU (by decide)
          (matchFourFieldAt_isSome kwGU) ['\n'] (renderAll ps) (by decide)]
      rw [show scanGo (matchFourFieldAt kwGU) (renderAll ps) 0 =
        regexScan (matchFourFieldAt kwGU) (renderAll ps) from rfl, ih hps]
      rw [List.filterMap_cons_some (show fourFieldCapture
        (RPart.lineG4 a b c d) = some (a, b, c, d.dropWhile isWsChar) by
          simp [fourFieldCapture])]
    | lineT a =>
      have hp' : fieldOk a = true := by simpa [PartOk] using hp
      rw [scanGo_noTouch_append _ kwGU (by decide)
        (matchFourFieldAt_isSome kwGU) _ (renderAll ps)
        (noTouch_lineT_render (by decide)
          (fieldOk_noTouch hp' (by simp [allKws])) (by decide))]
      rw [show scanGo (matchFourFieldAt kwGU) (renderAll ps) 0 =
        regexScan (matchFourFieldAt kwGU) (renderAll ps) from rfl, ih hps]
      rw [List.filterMap_cons_none (by simp [fourFieldCapture])]

theorem jsTrim_dropWhile (s : Str) :
    jsTrim (s.dropWhile isWsChar) = jsTrim s := by
  rw [jsTrim, jsTrim, List.dropWhile_idempotent]

theorem filterMap_ext {α β : Type} (l : List α) (f g : α → Option β)
    (h : ∀ a ∈ l, f a = g a) : l.filterMap f = l.filterMap g := by
  induction l with
  | nil => rfl
  | cons a l ih =>
    rw [List.filterMap_cons, List.filterMap_cons, h a (List.mem_cons_self a l),
      ih (fun x hx => h x (List.mem_cons_of_mem a hx))]

theorem renderAll_append (a b : List RPart) :
    renderAll (a ++ b) = renderAll a ++ renderAll b := by
  induction a with
  | nil => rfl
  | cons p ps ih => rw [List.cons_append, renderAll_cons, renderAll_cons, ih,
      List.append_assoc]

theorem jsTrim_id {s : Str}
    (hh : ∀ c, s.head? = some c → isWsChar c = false)
    (hl : ∀ c, s.getLast? = some c → isWsChar c = false) : jsTrim s = s := by
  rw [jsTrim]
  have h1 : s.dropWhile isWsChar = s := by
    cases s with
    | nil => rfl
    | cons c cs =>
      exact List.dropWhile_cons_of_neg (by simp [hh c rfl])
  rw [h1]
  have h2 : s.reverse.dropWhile isWsChar = s.reverse := by
    cases hrev : s.reverse with
    | nil => rfl
    | cons c cs =>
      refine List.dropWhile_cons_of_neg ?_
      have : s.getLast? = some c := by
        rw [← List.head?_reverse, hrev]
        rfl
      simp [hl c this]
  rw [h2, List.reverse_reverse]

/-- C4: `analyzeIntent` evaluates the keyword groups in the fixed priority
order Goal > Educational > Discovery > Refinement — a message hitting an
earlier group is routed to that group's agent regardless of later hits —
and when no group matches and no target persona id is set it keeps the
current agent type unless that type has no registered agent, in which case
it falls back to Educational. -/
theorem c4_intent_priority :
    (∀ (agents : AgentType → Bool) (ctx : ConversationContext) (msg : Str),
      ConversationManager.goalKeywordHit msg = true →
      ConversationManager.analyzeIntent agents ctx msg = AgentType.goal) ∧
    (∀ (agents : AgentType → Bool) (ctx : ConversationContext) (msg : Str),
      ConversationManager.goalKeywordHit msg = false →
      ConversationManager.educationalKeywordHit msg = true →
      ConversationManager.analyzeIntent agents ctx msg =
        AgentType.educational) ∧
    (∀ (agents : AgentType → Bool) (ctx : ConversationContext) (msg : Str),
      ConversationManager.goalKeywordHit msg = false →
      ConversationManager.educationalKeywordHit msg = false →
      ConversationManager.discoveryKeywordHit msg = true →
      ConversationManager.analyzeIntent agents ctx msg =
        AgentType.discovery) ∧
    (∀ (agents : AgentType → Bool) (ctx : ConversationContext) (msg : Str),
      ConversationManager.goalKeywordHit msg = false →
      ConversationManager.educationalKeywordHit msg = false →
      ConversationManager.discoveryKeywordHit msg = false →
      (ConversationManager.refinementKeywordHit msg ||
        jsTruthyOptStr ctx.targetPersonaId) = true →
      ConversationManager.analyzeIntent agents ctx msg =
        AgentType.refinement) ∧
    (∀ (agents : AgentType → Bool) (ctx : ConversationContext) (msg : Str),
      ConversationManager.goalKeywordHit msg = false →
      ConversationManager.educationalKeywordHit msg = false →
      ConversationManager.discoveryKeywordHit msg = false →
      ConversationManager.refinementKeywordHit msg = false →
      jsTruthyOptStr ctx.targetPersonaId = false →
      ConversationManager.analyzeIntent agents ctx msg =
        (if agents ctx.currentAgentType then ctx.currentAgentType
         else AgentType.educational)) := by
  refine ⟨?_, ?_, ?_, ?_, ?_⟩
  · intro agents ctx msg hg
    simp [ConversationManager.analyzeIntent, hg]
  · intro agents ctx msg hg he
    simp [ConversationManager.analyzeIntent, hg, he]
  · intro agents ctx msg hg he hd
    simp [ConversationManager.analyzeIntent, hg, he, hd]
  · intro agents ctx msg hg he hd hr
    simp [ConversationManager.analyzeIntent, hg, he, hd, hr]
  · intro agents ctx msg hg he hd hr ht
    simp [ConversationManager.analyzeIntent, hg, he, hd, hr, ht]

/-- Witness for c4_intent_priority: a goal-keyword message routes to the
Goal agent; a keyword-free message with no target persona keeps the
current (Discovery) agent. -/
theorem c4_witness :
    ConversationManager.goalKeywordHit "i want to set a goal".data = true ∧
    ConversationManager.analyzeIntent ConversationManager.initialAgents ctxEx
      "i want to set a goal".data = AgentType.goal ∧
    ConversationManager.analyzeIntent ConversationManager.initialAgents ctxEx
      "hello there".data = AgentType.discovery := by
  refine ⟨by decide, c4_intent_priority.1 _ _ _ (by decide), ?_⟩
  have := c4_intent_priority.2.2.2.2 ConversationManager.initialAgents ctxEx
    "hello there".data (by decide) (by decide) (by decide) (by decide)
    (by decide)
  simpa [ConversationManager.initialAgents, ctxEx] using this

/-- C3 as stated is false: even with a target persona id set, a message
hitting the Goal or Educational keyword group is routed to that group's
agent, not to Refinement.  Here the context targets persona-1 and the
message is "what is a persona". -/
theorem c3_counterexample :
    jsTruthyOptStr ctxTarget.targetPersonaId = true ∧
    ConversationManager.analyzeIntent ConversationManager.initialAgents
      ctxTarget "what is a persona".data = AgentType.educational ∧
    AgentType.educational ≠ AgentType.refinement := by
  refine ⟨by decide, by decide, by decide⟩

/-- C3 amended: whenever a target persona id is set, `analyzeIntent` routes
every message that matches no Goal, Educational or Discovery keyword to
the Refinement agent, even when the message contains no Refinement
keyword. -/
theorem c3_amended_sticky_refinement (agents : AgentType → Bool)
    (ctx : ConversationContext) (msg : Str)
    (htarget : jsTruthyOptStr ctx.targetPersonaId = true)
    (hg : ConversationManager.goalKeywordHit msg = false)
    (he : ConversationManager.educationalKeywordHit msg = false)
    (hd : ConversationManager.discoveryKeywordHit msg = false) :
    ConversationManager.analyzeIntent agents ctx msg =
      AgentType.refinement := by
  simp [ConversationManager.analyzeIntent, hg, he, hd, htarget]

/-- Witness for c3_amended_sticky_refinement: a keyword-free message routes
to Refinement once a target persona is set. -/
theorem c3_witness :
    jsTruthyOptStr ctxTarget.targetPersonaId = true ∧
    ConversationManager.refinementKeywordHit "hello there".data = false ∧
    ConversationManager.analyzeIntent ConversationManager.initialAgents
      ctxTarget "hello there".data = AgentType.refinement :=
  ⟨by decide, by decide,
    c3_amended_sticky_refinement ConversationManager.initialAgents ctxTarget
      "hello there".data (by decide) (by decide) (by decide) (by decide)⟩

/-- C6: with 9 personas already stored (the default `maxPersonas = 9`),
`createPersona` of both persona services fails with the fixed message
`Maximum 9 personas allowed` and leaves the list and the whole service
state unchanged. -/
theorem c6_capacity_reject (personas : List Persona)
    (newId name northStar : Str) (st : AuthAwarePersonaService.State)
    (h9 : personas.length = 9) (hst : st.personas.length = 9)
    (hmax : st.maxPersonas = 9) :
    PersonaService.createPersona 9 personas newId name northStar =
      (⟨false, none, some "Maximum 9 personas allowed".data⟩, personas) ∧
    AuthAwarePersonaService.createPersona st newId name northStar =
      (⟨false, none, some "Maximum 9 personas allowed".data⟩, st) := by
  constructor
  · rw [PersonaService.createPersona, if_pos (by omega)]
    rw [show "Maximum ".data ++ (Nat.repr 9).data ++
      " personas allowed".data = "Maximum 9 personas allowed".data by rfl]
  · rw [AuthAwarePersonaService.createPersona, if_pos (by omega), hmax]
    rw [show "Maximum ".data ++ (Nat.repr 9).data ++
      " personas allowed".data = "Maximum 9 personas allowed".data by rfl]

/-- Witness for c6_capacity_reject at a concrete list of 9 personas. -/
theorem c6_witness :
    (List.replicate 9 (⟨[], [], []⟩ : Persona)).length = 9 ∧
    PersonaService.createPersona 9 (List.replicate 9 (⟨[], [], []⟩ : Persona))
        "id-x".data "New".data "Star".data =
      (⟨false, none, some "Maximum 9 personas allowed".data⟩,
       List.replicate 9 (⟨[], [], []⟩ : Persona)) :=
  ⟨by decide,
    (c6_capacity_reject (List.replicate 9 (⟨[], [], []⟩ : Persona))
      "id-x".data "New".data "Star".data
      ⟨List.replicate 9 ⟨[], [], []⟩, 9, false⟩
      (by decide) (by decide) (by decide)).1⟩

/-- C9 as stated is false for `ChatService.addMessage`: with
`maxMessages = 1` (any configured cap works the same once exceeded),
adding a second message evicts the first one, so the history is not
append-only. -/
theorem c9_counterexample :
    (⟨"1".data, Sender.user, "first".data, 0⟩ : ChatMessage) ∈
      (⟨[⟨"1".data, Sender.user, "first".data, 0⟩], 1, [], true, none⟩ :
        ChatService.State).messages ∧
    (ChatService.addMessage
        ⟨[⟨"1".data, Sender.user, "first".data, 0⟩], 1, [], true, none⟩
        ⟨"2".data, Sender.coach, "second".data, 1⟩).messages =
      [⟨"2".data, Sender.coach, "second".data, 1⟩] ∧
    (⟨"1".data, Sender.user, "first".data, 0⟩ : ChatMessage) ∉
      (ChatService.addMessage
        ⟨[⟨"1".data, Sender.user, "first".data, 0⟩], 1, [], true, none⟩
        ⟨"2".data, Sender.coach, "second".data, 1⟩).messages := by
  refine ⟨by decide, by decide, by decide⟩

/-- C9 amended: the Conversation Manager's turn update always preserves the
stored history and appends the user message and cleaned coach reply at the
end; `ChatService.addMessage` is append-only exactly while the stored
count stays within `maxMessages` — beyond that it evicts the oldest
non-system messages. -/
theorem c9_amended_append_behavior :
    (∀ (t : AgentType) (aiResponse userMessage uid cid : Str) (now : Nat)
      (ctx : ConversationContext),
      (ConversationManager.processWithAgent t aiResponse userMessage uid cid
        now ctx).2.conversationHistory =
        ctx.conversationHistory ++
          [⟨uid, Sender.user, userMessage, now⟩,
           ⟨cid, Sender.coach,
             (ConversationManager.agentProcessResponse t aiResponse now
               ctx).userResponse, now⟩]) ∧
    (∀ (st : ChatService.State) (m : ChatMessage),
      st.messages.length + 1 ≤ st.maxMessages →
      (ChatService.addMessage st m).messages = st.messages ++ [m]) := by
  constructor
  · intro t aiResponse userMessage uid cid now ctx
    rfl
  · intro st m hlen
    rw [ChatService.addMessage, if_neg (by simp; omega)]

/-- Witness for c9_amended_append_behavior: one manager turn appends the
two messages; one below-capacity addMessage appends. -/
theorem c9_witness :
    (ConversationManager.processWithAgent AgentType.discovery
        "Nice!".data "hi".data "u1".data "c1".data 7
        ctxEx).2.conversationHistory =
      [⟨"u1".data, Sender.user, "hi".data, 7⟩,
       ⟨"c1".data, Sender.coach, "Nice!".data, 7⟩] ∧
    (ChatService.addMessage ⟨[], 100, [], true, none⟩
        ⟨"1".data, Sender.user, "first".data, 0⟩).messages =
      [⟨"1".data, Sender.user, "first".data, 0⟩] := by
  constructor
  · have := c9_amended_append_behavior.1 AgentType.discovery "Nice!".data
      "hi".data "u1".data "c1".data 7 ctxEx
    rw [this]
    decide
  · have := c9_amended_append_behavior.2 ⟨[], 100, [], true, none⟩
      ⟨"1".data, Sender.user, "first".data, 0⟩ (by decide)
    rw [this]
    rfl

theorem retrySaveLoop_all_ok (net : Nat → Bool) :
    ∀ (ms : List ChatMessage) (i : Nat) (st : ChatService.State),
      st.isOnline = true → st.currentConversationId.isSome = true →
      (∀ j, net j = true) →
      ChatService.retrySaveLoop net ms i st =
        (st, ms.map ChatService.Eff.post) := by
  intro ms
  induction ms with
  | nil => intro i st _ _ _; rfl
  | cons m ms ih =>
    intro i st hon hcid hnet
    have hn : st.currentConversationId.isNone = false := by
      cases hc : st.currentConversationId with
      | none => rw [hc] at hcid; simp at hcid
      | some v => simp
    have hsave : ChatService.saveMessageToBackend (net i) st m =
        (st, [ChatService.Eff.post m]) := by
      rw [ChatService.saveMessageToBackend, if_neg (by simp [hn, hon]),
        if_pos (hnet i)]
    rw [ChatService.retrySaveLoop]
    simp only [hsave, ih (i + 1) st hon hcid hnet, List.map_cons]
    rfl

/-- C10: an offline or failed persistence call queues the message in order
and throws nothing; a failed POST also marks the service offline and
schedules a retry in 5000 ms; a failed retry probe schedules the next
retry in 10000 ms; and a successful probe (with the backend accepting
every POST) drains the pending queue in original enqueue order. -/
theorem c10_offline_queue_retry :
    (∀ (st : ChatService.State) (m : ChatMessage) (netOk : Bool),
      (st.currentConversationId.isNone || !st.isOnline) = true →
      ChatService.saveMessageToBackend netOk st m =
        ({ st with pendingMessages := st.pendingMessages ++ [m] }, [])) ∧
    (∀ (st : ChatService.State) (m : ChatMessage),
      st.currentConversationId.isSome = true → st.isOnline = true →
      ChatService.saveMessageToBackend false st m =
        ({ st with
            pendingMessages := st.pendingMessages ++ [m]
            isOnline := false },
         [ChatService.Eff.scheduleRetry 5000])) ∧
    (∀ (st : ChatService.State) (net : Nat → Bool),
      st.pendingMessages ≠ [] →
      ChatService.retryPendingMessages false net st =
        (st, [ChatService.Eff.scheduleRetry 10000])) ∧
    (∀ (st : ChatService.State) (net : Nat → Bool),
      st.currentConversationId.isSome = true → (∀ i, net i = true) →
      ChatService.retryPendingMessages true net st =
        ({ st with isOnline := true, pendingMessages := [] },
         st.pendingMessages.map ChatService.Eff.post)) := by
  refine ⟨?_, ?_, ?_, ?_⟩
  · intro st m netOk hoff
    rw [ChatService.saveMessageToBackend, if_pos hoff]
  · intro st m hcid hon
    have hn : st.currentConversationId.isNone = false := by
      cases hc : st.currentConversationId with
      | none => rw [hc] at hcid; simp at hcid
      | some v => simp
    rw [ChatService.saveMessageToBackend, if_neg (by simp [hn, hon])]
    rfl
  · intro st net hpend
    rw [ChatService.retryPendingMessages,
      if_neg (by simpa [List.isEmpty_iff] using hpend)]
    rfl
  · intro st net hcid hnet
    rw [ChatService.retryPendingMessages]
    by_cases hemp : st.pendingMessages.isEmpty
    · rw [if_pos hemp]
      have hnil : st.pendingMessages = [] := by
        simpa [List.isEmpty_iff] using hemp
      cases st with
      | mk msgs maxM pend onl cid =>
        simp only at hnil
        simp [hnil]
    · rw [if_neg hemp]
      rw [show (!true) = false from rfl, if_neg (by simp)]
      exact retrySaveLoop_all_ok net st.pendingMessages 0 _ rfl hcid hnet

/-- Witness for c10_offline_queue_retry at concrete states: queueing when
no conversation exists, the 5000 ms schedule on a failed POST, the
10000 ms schedule on a failed probe, and the in-order drain on success. -/
theorem c10_witness :
    ChatService.saveMessageToBackend true
        ⟨[], 100, [], true, none⟩ ⟨"1".data, Sender.user, "a".data, 0⟩ =
      (⟨[], 100, [⟨"1".data, Sender.user, "a".data, 0⟩], true, none⟩, []) ∧
    ChatService.saveMessageToBackend false
        ⟨[], 100, [], true, some "c1".data⟩
        ⟨"1".data, Sender.user, "a".data, 0⟩ =
      (⟨[], 100, [⟨"1".data, Sender.user, "a".data, 0⟩], false,
        some "c1".data⟩,
       [ChatService.Eff.scheduleRetry 5000]) ∧
    ChatService.retryPendingMessages false (fun _ => true)
        ⟨[], 100, [⟨"1".data, Sender.user, "a".data, 0⟩], false,
          some "c1".data⟩ =
      (⟨[], 100, [⟨"1".data, Sender.user, "a".data, 0⟩], false,
        some "c1".data⟩,
       [ChatService.Eff.scheduleRetry 10000]) ∧
    ChatService.retryPendingMessages true (fun _ => true)
        ⟨[], 100, [⟨"1".data, Sender.user, "a".data, 0⟩,
          ⟨"2".data, Sender.coach, "b".data, 1⟩], false, some "c1".data⟩ =
      (⟨[], 100, [], true, some "c1".data⟩,
       [ChatService.Eff.post ⟨"1".data, Sender.user, "a".data, 0⟩,
        ChatService.Eff.post ⟨"2".data, Sender.coach, "b".data, 1⟩]) := by
  refine ⟨?_, ?_, ?_, ?_⟩
  · have := c10_offline_queue_retry.1 ⟨[], 100, [], true, none⟩
      ⟨"1".data, Sender.user, "a".data, 0⟩ true (by decide)
    rw [this]
    rfl
  · have := c10_offline_queue_retry.2.1 ⟨[], 100, [], true, some "c1".data⟩
      ⟨"1".data, Sender.user, "a".data, 0⟩ (by decide) (by decide)
    rw [this]
    rfl
  · have := c10_offline_queue_retry.2.2.1
      ⟨[], 100, [⟨"1".data, Sender.user, "a".data, 0⟩], false,
        some "c1".data⟩ (fun _ => true) (by decide)
    rw [this]
  · have := c10_offline_queue_retry.2.2.2
      ⟨[], 100, [⟨"1".data, Sender.user, "a".data, 0⟩,
        ⟨"2".data, Sender.coach, "b".data, 1⟩], false, some "c1".data⟩
      (fun _ => true) (by decide) (fun _ => rfl)
    rw [this]
    rfl

theorem find?_append_of_none {pred : Persona → Bool} {a : List Persona}
    (b : List Persona) (h : ∀ x ∈ a, pred x = false) :
    (a ++ b).find? pred = b.find? pred := by
  induction a with
  | nil => rfl
  | cons q qs ih =>
    rw [List.cons_append,
      List.find?_cons_of_neg _ (by simp [h q (List.mem_cons_self q qs)]),
      ih (fun x hx => h x (List.mem_cons_of_mem q hx))]

theorem updateFirstById_append (nm ns id : Str)
    {pre : List Persona} (p : Persona) (post : List Persona)
    (hpre : ∀ q ∈ pre, (q.id == id) = false) (hp : (p.id == id) = true) :
    PersonaService.updateFirstById id (some nm) (some ns) (pre ++ p :: post) =
      some (⟨p.id, nm, ns⟩, pre ++ ⟨p.id, nm, ns⟩ :: post) := by
  induction pre with
  | nil =>
    rw [List.nil_append]
    simp [PersonaService.updateFirstById, hp]
  | cons q qs ih =>
    rw [List.cons_append]
    simp only [PersonaService.updateFirstById, hpre q (List.mem_cons_self q qs),
      Bool.false_eq_true, if_false,
      ih (fun x hx => hpre x (List.mem_cons_of_mem q hx))]
    rfl

/-- C7 as stated is false when persona names are not unique: with personas
A (north star x) and B, the update (name A, previousName B) first renames
B to A; the second application matches by name and hits the FIRST persona
named A, overwriting its north star, so the multiset of (name, northStar)
pairs changes. -/
theorem c7_counterexample :
    (PersonaService.applyUpdates 9
        [⟨"id1".data, "A".data, "x".data⟩, ⟨"id2".data, "B".data, "y".data⟩]
        ["id3".data] [⟨"A".data, "s".data, some "B".data⟩]) =
      [⟨"id1".data, "A".data, "x".data⟩, ⟨"id2".data, "A".data, "s".data⟩] ∧
    (PersonaService.applyUpdates 9
        [⟨"id1".data, "A".data, "x".data⟩, ⟨"id2".data, "A".data, "s".data⟩]
        ["id4".data] [⟨"A".data, "s".data, some "B".data⟩]) =
      [⟨"id1".data, "A".data, "s".data⟩, ⟨"id2".data, "A".data, "s".data⟩] ∧
    (([⟨"id1".data, "A".data, "x".data⟩,
       ⟨"id2".data, "A".data, "s".data⟩] : List Persona).map
        (fun q => (q.name, q.northStar))).count ("A".data, "x".data) = 1 ∧
    (([⟨"id1".data, "A".data, "s".data⟩,
       ⟨"id2".data, "A".data, "s".data⟩] : List Persona).map
        (fun q => (q.name, q.northStar))).count ("A".data, "x".data) = 0 := by
  refine ⟨by decide, by decide, by decide, by decide⟩

/-- C7 amended: provided the previous name P matches exactly one persona,
no other persona's name matches N case-insensitively, and ids in front of
it are distinct from its id, applying the update renames that persona to
(N, S); a second application finds the same persona (by previousName when
N and P collide case-insensitively, otherwise by name) and rewrites it in
place with the same values, leaving the list literally unchanged — so no
new persona is created and the multiset of (name, northStar) pairs is
preserved. -/
theorem c7_amended_idempotent_update
    (maxP : Nat) (pre post : List Persona) (p : Persona)
    (pN pS pP : Str) (ids ids2 : List Str)
    (hprev : PersonaService.normName p.name = PersonaService.normName pP)
    (hothersP : ∀ q ∈ pre ++ post,
      PersonaService.normName q.name ≠ PersonaService.normName pP)
    (hothersN : ∀ q ∈ pre ++ post,
      PersonaService.normName q.name ≠ PersonaService.normName pN)
    (hid : ∀ q ∈ pre, q.id ≠ p.id) :
    PersonaService.applyUpdates maxP (pre ++ p :: post) ids
        [⟨pN, pS, some pP⟩] =
      pre ++ ⟨p.id, pN, pS⟩ :: post ∧
    PersonaService.applyUpdates maxP (pre ++ ⟨p.id, pN, pS⟩ :: post) ids2
        [⟨pN, pS, some pP⟩] =
      pre ++ ⟨p.id, pN, pS⟩ :: post := by
  have hpreP : ∀ q ∈ pre,
      (PersonaService.normName q.name ==
        PersonaService.normName pP) = false := by
    intro q hq
    exact beq_eq_false_iff_ne.mpr
      (hothersP q (List.mem_append_left post hq))
  have hpostP : ∀ q ∈ post,
      (PersonaService.normName q.name ==
        PersonaService.normName pP) = false := by
    intro q hq
    exact beq_eq_false_iff_ne.mpr
      (hothersP q (List.mem_append_right pre hq))
  have hpreN : ∀ q ∈ pre,
      (PersonaService.normName q.name ==
        PersonaService.normName pN) = false := by
    intro q hq
    exact beq_eq_false_iff_ne.mpr
      (hothersN q (List.mem_append_left post hq))
  have hidb : ∀ q ∈ pre, (q.id == p.id) = false := by
    intro q hq
    exact beq_eq_false_iff_ne.mpr (hid q hq)
  have hupd : PersonaService.updateFirstById p.id (some pN) (some pS)
      (pre ++ p :: post) =
      some (⟨p.id, pN, pS⟩, pre ++ ⟨p.id, pN, pS⟩ :: post) :=
    updateFirstById_append pN pS p.id p post hidb (by simp)
  have hupd2 : PersonaService.updateFirstById p.id (some pN) (some pS)
      (pre ++ (⟨p.id, pN, pS⟩ : Persona) :: post) =
      some (⟨p.id, pN, pS⟩, pre ++ ⟨p.id, pN, pS⟩ :: post) :=
    updateFirstById_append pN pS p.id ⟨p.id, pN, pS⟩ post hidb (by simp)
  constructor
  · simp only [PersonaService.applyUpdates]
    rw [PersonaService.applyOneUpdate]
    have hfind : (pre ++ p :: post).find?
        (fun q => PersonaService.normName q.name ==
          PersonaService.normName pP) = some p := by
      rw [find?_append_of_none (p :: post) hpreP,
        List.find?_cons_of_pos _ (by simp [hprev])]
    simp only [hfind]
    simp only [PersonaService.updatePersona, hupd]
  · simp only [PersonaService.applyUpdates]
    rw [PersonaService.applyOneUpdate]
    by_cases hNP : PersonaService.normName pN = PersonaService.normName pP
    · have hfind : (pre ++ (⟨p.id, pN, pS⟩ : Persona) :: post).find?
          (fun q => PersonaService.normName q.name ==
            PersonaService.normName pP) = some ⟨p.id, pN, pS⟩ := by
        rw [find?_append_of_none ((⟨p.id, pN, pS⟩ : Persona) :: post) hpreP,
          List.find?_cons_of_pos _ (by simp [hNP])]
      simp only [hfind]
      simp only [PersonaService.updatePersona, hupd2]
    · have hfindP : (pre ++ (⟨p.id, pN, pS⟩ : Persona) :: post).find?
          (fun q => PersonaService.normName q.name ==
            PersonaService.normName pP) = none := by
        rw [find?_append_of_none ((⟨p.id, pN, pS⟩ : Persona) :: post) hpreP,
          List.find?_cons_of_neg _ (by simp [hNP]),
          List.find?_eq_none.mpr]
        intro q hq
        simp [hpostP q hq]
      have hfindN : (pre ++ (⟨p.id, pN, pS⟩ : Persona) :: post).find?
          (fun q => PersonaService.normName q.name ==
            PersonaService.normName pN) = some ⟨p.id, pN, pS⟩ := by
        rw [find?_append_of_none ((⟨p.id, pN, pS⟩ : Persona) :: post) hpreN,
          List.find?_cons_of_pos _ (by simp)]
      simp only [hfindP, hfindN]
      simp only [PersonaService.updatePersona, hupd2]

/-- Witness for c7_amended_idempotent_update at a concrete two-persona
list: renaming Parent to Nurturing Guide twice is idempotent. -/
theorem c7_witness :
    PersonaService.applyUpdates 9
        [⟨"id0".data, "Chef".data, "cook".data⟩,
         ⟨"id1".data, "Parent".data, "old".data⟩]
        ["idx".data]
        [⟨"Nurturing Guide".data, "Raise confident children".data,
          some "Parent".data⟩] =
      [⟨"id0".data, "Chef".data, "cook".data⟩,
       ⟨"id1".data, "Nurturing Guide".data,
        "Raise confident children".data⟩] ∧
    PersonaService.applyUpdates 9
        [⟨"id0".data, "Chef".data, "cook".data⟩,
         ⟨"id1".data, "Nurturing Guide".data,
          "Raise confident children".data⟩]
        ["idy".data]
        [⟨"Nurturing Guide".data, "Raise confident children".data,
          some "Parent".data⟩] =
      [⟨"id0".data, "Chef".data, "cook".data⟩,
       ⟨"id1".data, "Nurturing Guide".data,
        "Raise confident children".data⟩] := by
  have h := c7_amended_idempotent_update 9
    [⟨"id0".data, "Chef".data, "cook".data⟩]
    []
    ⟨"id1".data, "Parent".data, "old".data⟩
    "Nurturing Guide".data "Raise confident children".data "Parent".data
    ["idx".data] ["idy".data]
    (by decide) (by decide) (by decide) (by decide)
  exact ⟨h.1, h.2⟩

theorem twoFieldCapture_pc (p : RPart) :
    (twoFieldCapture kwPC p).map
      (fun q => (⟨ActionKind.create, jsTrim q.1, some (jsTrim q.2), none⟩ :
        PersonaAction)) =
    (RPart.pcFields p).map
      (fun q => (⟨ActionKind.create, jsTrim q.1, some (jsTrim q.2), none⟩ :
        PersonaAction)) := by
  cases p with
  | line2 k n ns =>
    cases k <;>
      simp [twoFieldCapture, RPart.pcFields, Marker.str, kwPC, kwRP, kwDP,
        kwMP, jsTrim_dropWhile] <;> decide
  | plain s => rfl
  | lineG3 a b c => rfl
  | lineG4 a b c d => rfl
  | lineT a => rfl

/-- C2: over any well-formed structured reply, the Discovery and
Educational agents return exactly one create PersonaAction per
PERSONA_CONFIRMED line — carrying that line's trimmed name and north
star, in reply order — and the Discovery userResponse has every
PERSONA_CONFIRMED line stripped; on the claim's concrete example the
userResponse is "Great idea!" and the single action is
(create, Strategic Leader, Empower teams to thrive). -/
theorem c2_persona_confirmed_parse :
    (∀ (ps : List RPart) (ctx : ConversationContext),
      (∀ p ∈ ps, PartOk p = true) →
      (DiscoveryAgent.processResponse (renderAll ps) ctx).personaActions =
        ps.filterMap (fun p => (RPart.pcFields p).map
          (fun q => ⟨ActionKind.create, jsTrim q.1, some (jsTrim q.2),
            none⟩)) ∧
      (EducationalAgent.processResponse (renderAll ps) ctx).personaActions =
        ps.filterMap (fun p => (RPart.pcFields p).map
          (fun q => ⟨ActionKind.create, jsTrim q.1, some (jsTrim q.2),
            none⟩)) ∧
      (DiscoveryAgent.processResponse (renderAll ps) ctx).userResponse =
        jsTrim (renderAll (ps.filter
          (fun p => !(RPart.isLine2Of kwPC p))))) ∧
    ((DiscoveryAgent.processResponse
        "Great idea!\nPERSONA_CONFIRMED: Strategic Leader | Empower teams to thrive\n".data
        ctxEx).userResponse = "Great idea!".data ∧
     (DiscoveryAgent.processResponse
        "Great idea!\nPERSONA_CONFIRMED: Strategic Leader | Empower teams to thrive\n".data
        ctxEx).personaActions =
       [⟨ActionKind.create, "Strategic Leader".data,
         some "Empower teams to thrive".data, none⟩]) := by
  constructor
  · intro ps ctx h
    have hscan := scanTwo_renderAll kwPC (by simp [allKws]) (by decide)
      (by intro m hm; revert hm; cases m <;> decide)
      (by decide) (by decide) (by decide) (by decide) (by decide) ps h
    have hacts :
        (DiscoveryAgent.parsePersonaActions (renderAll ps)) =
        ps.filterMap (fun p => (RPart.pcFields p).map
          (fun q => ⟨ActionKind.create, jsTrim q.1, some (jsTrim q.2),
            none⟩)) := by
      rw [DiscoveryAgent.parsePersonaActions, hscan, List.map_filterMap]
      exact filterMap_ext _ _ _ (fun p _ => twoFieldCapture_pc p)
    refine ⟨hacts, ?_, ?_⟩
    · show EducationalAgent.parsePersonaActions (renderAll ps) = _
      rw [show EducationalAgent.parsePersonaActions =
        DiscoveryAgent.parsePersonaActions from rfl]
      exact hacts
    · exact baseClean_renderAll ps h
  · constructor
    · decide
    · decide

/-- Witness for c2_persona_confirmed_parse: a reply with one
PERSONA_CONFIRMED line among plain text yields exactly that create action
and a cleaned userResponse. -/
theorem c2_witness :
    (∀ p ∈ [RPart.plain "Okay!".data,
      RPart.line2 Marker.personaConfirmed " Leader ".data
        " Lead with skill".data], PartOk p = true) ∧
    (DiscoveryAgent.processResponse
        (renderAll [RPart.plain "Okay!".data,
          RPart.line2 Marker.personaConfirmed " Leader ".data
            " Lead with skill".data]) ctxEx).personaActions =
      [⟨ActionKind.create, "Leader".data, some "Lead with skill".data,
        none⟩] := by
  refine ⟨by decide, ?_⟩
  rw [(c2_persona_confirmed_parse.1
    [RPart.plain "Okay!".data,
     RPart.line2 Marker.personaConfirmed " Leader ".data
       " Lead with skill".data] ctxEx (by decide)).1]
  decide

theorem threeFieldCapture_gc (p : RPart) :
    (threeFieldCapture p).map
      (fun q => (⟨ActionKind.create, jsTrim q.1, some (jsTrim q.2.1),
        some (jsTrim q.2.2), none⟩ : GoalAction)) =
    (RPart.gcFields p).map
      (fun q => (⟨ActionKind.create, jsTrim q.1, some (jsTrim q.2.1),
        some (jsTrim q.2.2), none⟩ : GoalAction)) := by
  cases p <;> simp [threeFieldCapture, RPart.gcFields, jsTrim_dropWhile]

theorem fourFieldCapture_gu (p : RPart) :
    (fourFieldCapture p).map
      (fun q => (⟨ActionKind.update, jsTrim q.2.1, some (jsTrim q.2.2.1),
        some (jsTrim q.2.2.2), some (jsTrim q.1)⟩ : GoalAction)) =
    (RPart.guFields p).map
      (fun q => (⟨ActionKind.update, jsTrim q.2.1, some (jsTrim q.2.2.1),
        some (jsTrim q.2.2.2), some (jsTrim q.1)⟩ : GoalAction)) := by
  cases p <;> simp [fourFieldCapture, RPart.guFields, jsTrim_dropWhile]

/-- C8: a well-formed structured reply containing exactly one
GOAL_CONFIRMED line and exactly one GOAL_UPDATED line produces exactly two
GoalActions — the create action carrying the confirmed line's trimmed
fields and the update action carrying the updated line's trimmed fields —
with the create action first, whatever the order of the lines in the
reply. -/
theorem c8_goal_actions_order (ps : List RPart) (ctx : ConversationContext)
    (n1 c1 d1 o2 n2 c2 d2 : Str)
    (h : ∀ p ∈ ps, PartOk p = true)
    (hG3 : ps.filterMap RPart.gcFields = [(n1, c1, d1)])
    (hG4 : ps.filterMap RPart.guFields = [(o2, n2, c2, d2)]) :
    (GoalAgent.processResponse (renderAll ps) ctx).goalActions =
      some [⟨ActionKind.create, jsTrim n1, some (jsTrim c1),
          some (jsTrim d1), none⟩,
        ⟨ActionKind.update, jsTrim n2, some (jsTrim c2), some (jsTrim d2),
          some (jsTrim o2)⟩] := by
  show some (GoalAgent.parseGoalActions (renderAll ps)) = _
  rw [GoalAgent.parseGoalActions]
  rw [scanThree_renderAll ps h, scanFour_renderAll ps h]
  rw [List.map_filterMap, List.map_filterMap]
  rw [filterMap_ext _ _ _ (fun p _ => threeFieldCapture_gc p),
    filterMap_ext _ _ _ (fun p _ => fourFieldCapture_gu p)]
  rw [← List.map_filterMap, ← List.map_filterMap, hG3, hG4]
  rfl

/-- Witness for c8_goal_actions_order: a reply with one confirmed and one
updated goal line (update line first in the text) still yields the create
action first. -/
theorem c8_witness :
    (GoalAgent.processResponse
        (renderAll [RPart.lineG4 " Old goal ".data " New goal ".data
            " New criteria ".data " 2026-02-01".data,
          RPart.plain "Sure thing.".data,
          RPart.lineG3 " Run ".data " Run 5 km ".data " 2026-01-01".data])
        ctxEx).goalActions =
      some [⟨ActionKind.create, "Run".data, some "Run 5 km".data,
          some "2026-01-01".data, none⟩,
        ⟨ActionKind.update, "New goal".data, some "New criteria".data,
          some "2026-02-01".data, some "Old goal".data⟩] := by
  rw [c8_goal_actions_order _ ctxEx " Run ".data " Run 5 km ".data
    " 2026-01-01".data " Old goal ".data " New goal ".data
    " New criteria ".data " 2026-02-01".data
    (by decide) (by decide) (by decide)]
  decide

/-- C5 as stated is false: a line matching `REFINED_PERSONA: X | Y` with an
all-whitespace X is dropped even though Y.trim() is far longer than 10
characters, because the parser also requires a non-empty trimmed name. -/
theorem c5_counterexample :
    (matchTwoFieldAt kwRP
      "REFINED_PERSONA:   | This north star is long enough\n".data).isSome =
      true ∧
    10 < (jsTrim " This north star is long enough".data).length ∧
    RefinementAgent.parseRefinementActions
      "REFINED_PERSONA:   | This north star is long enough\n".data = [] := by
  refine ⟨by decide, by decide, by decide⟩

theorem twoFieldCapture_rp_cond (p : RPart) :
    ((twoFieldCapture kwRP p).bind
      (fun q =>
        if !(jsTrim q.1).isEmpty && !(jsTrim q.2).isEmpty &&
            decide (10 < (jsTrim q.2).length) then
          some (⟨ActionKind.update, jsTrim q.1, some (jsTrim q.2), none⟩ :
            PersonaAction)
        else none)) =
    ((RPart.rpFields p).bind
      (fun q =>
        if !(jsTrim q.1).isEmpty && !(jsTrim q.2).isEmpty &&
            decide (10 < (jsTrim q.2).length) then
          some (⟨ActionKind.update, jsTrim q.1, some (jsTrim q.2), none⟩ :
            PersonaAction)
        else none)) := by
  cases p with
  | line2 k n ns =>
    cases k with
    | refinedPersona =>
      simp [twoFieldCapture, RPart.rpFields, Marker.str, jsTrim_dropWhile]
    | personaConfirmed =>
      simp only [twoFieldCapture, RPart.rpFields, Marker.str]
      rw [if_neg (by decide)]
    | deletePersona =>
      simp only [twoFieldCapture, RPart.rpFields, Marker.str]
      rw [if_neg (by decide)]
    | mergePersonas =>
      simp only [twoFieldCapture, RPart.rpFields, Marker.str]
      rw [if_neg (by decide)]
    | goalConfirmed =>
      simp only [twoFieldCapture, RPart.rpFields, Marker.str]
      rw [if_neg (by decide)]
    | goalUpdated =>
      simp only [twoFieldCapture, RPart.rpFields, Marker.str]
      rw [if_neg (by decide)]
    | transitionToGoals =>
      simp only [twoFieldCapture, RPart.rpFields, Marker.str]
      rw [if_neg (by decide)]
  | plain s => rfl
  | lineG3 a b c => rfl
  | lineG4 a b c d => rfl
  | lineT a => rfl

/-- C5 amended: for every REFINED_PERSONA line of a well-formed structured
reply, the update action is kept exactly when the trimmed name is
non-empty and the trimmed north star is non-empty and longer than 10
characters; in particular a north star whose trimmed length is at most 10
is dropped, and so is a line whose name trims to the empty string. -/
theorem c5_amended_refined_filter (ps : List RPart) (now : Nat)
    (ctx : ConversationContext) (h : ∀ p ∈ ps, PartOk p = true) :
    (RefinementAgent.processResponse (renderAll ps) now ctx).personaActions =
      ps.filterMap (fun p => (RPart.rpFields p).bind
        (fun q =>
          if !(jsTrim q.1).isEmpty && !(jsTrim q.2).isEmpty &&
              decide (10 < (jsTrim q.2).length) then
            some ⟨ActionKind.update, jsTrim q.1, some (jsTrim q.2), none⟩
          else none)) := by
  show RefinementAgent.parseRefinementActions (renderAll ps) = _
  rw [RefinementAgent.parseRefinementActions]
  rw [scanTwo_renderAll kwRP (by simp [allKws]) (by decide)
    (by intro m hm; revert hm; cases m <;> decide)
    (by decide) (by decide) (by decide) (by decide) (by decide) ps h]
  rw [List.filterMap_filterMap]
  exact filterMap_ext _ _ _ (fun p _ => twoFieldCapture_rp_cond p)

/-- Witness for c5_amended_refined_filter: a long-enough north star is
kept, a 9-character one is dropped. -/
theorem c5_witness :
    (RefinementAgent.processResponse
        (renderAll [RPart.line2 Marker.refinedPersona " Leader ".data
            " Lead with skill".data,
          RPart.plain "Keep going.".data,
          RPart.line2 Marker.refinedPersona " Helper ".data
            " Too brief".data]) 0 ctxEx).personaActions =
      [⟨ActionKind.update, "Leader".data, some "Lead with skill".data,
        none⟩] := by
  rw [c5_amended_refined_filter _ 0 ctxEx (by decide)]
  decide

/-- C1 as stated is false: the Goal agent inherits the unmodified
`BaseAgent.cleanResponseForUser`, which strips no goal grammar, so a
GOAL_CONFIRMED line survives verbatim in the user-visible text. -/
theorem c1_counterexample :
    (GoalAgent.processResponse
        "Done!\nGOAL_CONFIRMED: Run | Run 5 km weekly | 2026-01-01".data
        ctxEx).userResponse =
      "Done!\nGOAL_CONFIRMED: Run | Run 5 km weekly | 2026-01-01".data ∧
    includesSub
      (GoalAgent.processResponse
        "Done!\nGOAL_CONFIRMED: Run | Run 5 km weekly | 2026-01-01".data
        ctxEx).userResponse
      "GOAL_CONFIRMED: Run | Run 5 km weekly | 2026-01-01".data = true := by
  refine ⟨by decide, by decide⟩

theorem head?_append_left {a : Str} (b : Str) (ha : a ≠ []) :
    (a ++ b).head? = a.head? := by
  cases a with
  | nil => exact absurd rfl ha
  | cons c cs => rfl

theorem jsTrim_renderAll_bounded (s0 s1 : Str) (mid : List RPart)
    (hs0 : s0 ≠ []) (hs1 : s1 ≠ [])
    (hh : ∀ c, s0.head? = some c → isWsChar c = false)
    (hl : ∀ c, s1.getLast? = some c → isWsChar c = false) :
    jsTrim (renderAll (RPart.plain s0 :: mid ++ [RPart.plain s1])) =
      renderAll (RPart.plain s0 :: mid ++ [RPart.plain s1]) := by
  have hshape : renderAll (RPart.plain s0 :: mid ++ [RPart.plain s1]) =
      (s0 ++ renderAll mid) ++ s1 := by
    rw [renderAll_append, renderAll_cons,
      show (RPart.plain s0).render = s0 from rfl,
      show renderAll [RPart.plain s1] = s1 ++ [] from rfl, List.append_nil]
  rw [hshape]
  apply jsTrim_id
  · intro c hc
    rw [List.append_assoc, head?_append_left _ hs0] at hc
    exact hh c hc
  · intro c hc
    rw [List.getLast?_append_of_ne_nil _ hs1] at hc
    exact hl c hc

theorem filter_bounded (f : RPart → Bool)
    (hf : ∀ s, f (RPart.plain s) = true) (s0 s1 : Str) (mid : List RPart) :
    (RPart.plain s0 :: mid ++ [RPart.plain s1]).filter f =
      RPart.plain s0 :: mid.filter f ++ [RPart.plain s1] := by
  rw [List.filter_append, List.filter_cons_of_pos (hf s0)]
  simp [hf s1]

theorem PartOk_bounded_filter (f : RPart → Bool) {s0 s1 : Str}
    {mid : List RPart}
    (h : ∀ p ∈ (RPart.plain s0 :: mid ++ [RPart.plain s1]), PartOk p = true) :
    ∀ p ∈ (RPart.plain s0 :: mid.filter f ++ [RPart.plain s1]),
      PartOk p = true := by
  intro p hp
  rcases List.mem_append.mp hp with hp1 | hp2
  · rcases List.mem_cons.mp hp1 with hp0 | hpm
    · exact hp0 ▸ h _ (List.mem_append_left _ (List.mem_cons_self _ _))
    · exact h p (List.mem_append_left _
        (List.mem_cons_of_mem _ (List.mem_of_mem_filter hpm)))
  · exact h p (List.mem_append_right _ hp2)

/-- C1 amended: every agent strips PERSONA_CONFIRMED lines from the
user-visible text; the Refinement agent additionally strips
REFINED_PERSONA lines and the Management agent additionally strips
DELETE_PERSONA and MERGE_PERSONAS lines; no agent strips GOAL_CONFIRMED,
GOAL_UPDATED or TRANSITION_TO_GOALS lines — in particular the Goal
agent's userResponse keeps its goal grammar lines verbatim (only the
PERSONA_CONFIRMED lines are filtered out of the rendered reply below, so
any goal or transition line in `ps` reappears in the result). -/
theorem c1_amended_strip_behavior :
    (∀ (ps : List RPart) (ctx : ConversationContext),
      (∀ p ∈ ps, PartOk p = true) →
      (DiscoveryAgent.processResponse (renderAll ps) ctx).userResponse =
        jsTrim (renderAll (ps.filter
          (fun p => !(RPart.isLine2Of kwPC p)))) ∧
      (EducationalAgent.processResponse (renderAll ps) ctx).userResponse =
        jsTrim (renderAll (ps.filter
          (fun p => !(RPart.isLine2Of kwPC p)))) ∧
      (GoalAgent.processResponse (renderAll ps) ctx).userResponse =
        jsTrim (renderAll (ps.filter
          (fun p => !(RPart.isLine2Of kwPC p))))) ∧
    (∀ (s0 s1 : Str) (mid : List RPart) (ctx : ConversationContext)
      (now : Nat),
      (∀ p ∈ (RPart.plain s0 :: mid ++ [RPart.plain s1]), PartOk p = true) →
      s0 ≠ [] → s1 ≠ [] →
      (∀ c, s0.head? = some c → isWsChar c = false) →
      (∀ c, s1.getLast? = some c → isWsChar c = false) →
      (RefinementAgent.processResponse
          (renderAll (RPart.plain s0 :: mid ++ [RPart.plain s1])) now
          ctx).userResponse =
        renderAll (RPart.plain s0 ::
          (mid.filter (fun p => !(RPart.isLine2Of kwPC p))).filter
            (fun p => !(RPart.isLine2Of kwRP p)) ++ [RPart.plain s1]) ∧
      (ManagementAgent.processResponse
          (renderAll (RPart.plain s0 :: mid ++ [RPart.plain s1])) now
          ctx).userResponse =
        renderAll (RPart.plain s0 ::
          (((mid.filter (fun p => !(RPart.isLine2Of kwPC p))).filter
            (fun p => !(RPart.isLine2Of kwDP p))).filter
              (fun p => !(RPart.isLine2Of kwMP p))) ++ [RPart.plain s1])) := by
  constructor
  · intro ps ctx h
    refine ⟨baseClean_renderAll ps h, baseClean_renderAll ps h,
      baseClean_renderAll ps h⟩
  · intro s0 s1 mid ctx now h hs0 hs1 hh hl
    have hfpc : ∀ s, (fun p => !(RPart.isLine2Of kwPC p))
        (RPart.plain s) = true := by intro s; rfl
    have hfdp : ∀ s, (fun p => !(RPart.isLine2Of kwDP p))
        (RPart.plain s) = true := by intro s; rfl
    have hfmp : ∀ s, (fun p => !(RPart.isLine2Of kwMP p))
        (RPart.plain s) = true := by intro s; rfl
    have hfrp : ∀ s, (fun p => !(RPart.isLine2Of kwRP p))
        (RPart.plain s) = true := by intro s; rfl
    have hbase : BaseAgent.cleanResponseForUser
        (renderAll (RPart.plain s0 :: mid ++ [RPart.plain s1])) =
        renderAll (RPart.plain s0 ::
          mid.filter (fun p => !(RPart.isLine2Of kwPC p)) ++
            [RPart.plain s1]) := by
      rw [baseClean_renderAll _ h,
        filter_bounded _ hfpc s0 s1 mid,
        jsTrim_renderAll_bounded s0 s1 _ hs0 hs1 hh hl]
    have hOk1 : ∀ p ∈ (RPart.plain s0 ::
        mid.filter (fun p => !(RPart.isLine2Of kwPC p)) ++
          [RPart.plain s1]), PartOk p = true :=
      PartOk_bounded_filter _ h
    constructor
    · show RefinementAgent.cleanResponseForUser _ = _
      rw [RefinementAgent.cleanResponseForUser, hbase]
      rw [show jsReplaceAll (matchCleanPipeAt kwRP)
          (renderAll (RPart.plain s0 ::
            mid.filter (fun p => !(RPart.isLine2Of kwPC p)) ++
              [RPart.plain s1])) =
        stripGo (matchCleanPipeAt kwRP)
          (renderAll (RPart.plain s0 ::
            mid.filter (fun p => !(RPart.isLine2Of kwPC p)) ++
              [RPart.plain s1])) 0 from rfl]
      rw [strip_renderAll kwRP (by simp [allKws]) (by decide)
        (by intro m hm; revert hm; cases m <;> decide)
        (by decide) (by decide) (by decide) (by decide) (by decide) _ hOk1]
      rw [filter_bounded _ hfrp s0 s1 _]
      rw [jsTrim_renderAll_bounded s0 s1 _ hs0 hs1 hh hl]
    · show ManagementAgent.cleanResponseForUser _ = _
      rw [ManagementAgent.cleanResponseForUser, hbase]
      rw [show jsReplaceAll (matchCleanPipeAt kwDP)
          (renderAll (RPart.plain s0 ::
            mid.filter (fun p => !(RPart.isLine2Of kwPC p)) ++
              [RPart.plain s1])) =
        stripGo (matchCleanPipeAt kwDP)
          (renderAll (RPart.plain s0 ::
            mid.filter (fun p => !(RPart.isLine2Of kwPC p)) ++
              [RPart.plain s1])) 0 from rfl]
      rw [strip_renderAll kwDP (by simp [allKws]) (by decide)
        (by intro m hm; revert hm; cases m <;> decide)
        (by decide) (by decide) (by decide) (by decide) (by decide) _ hOk1]
      rw [filter_bounded _ hfdp s0 s1 _]
      have hOk2 : ∀ p ∈ (RPart.plain s0 ::
          (mid.filter (fun p => !(RPart.isLine2Of kwPC p))).filter
            (fun p => !(RPart.isLine2Of kwDP p)) ++
            [RPart.plain s1]), PartOk p = true :=
        PartOk_bounded_filter _ hOk1
      rw [show jsReplaceAll (matchCleanPipeAt kwMP)
          (renderAll (RPart.plain s0 ::
            (mid.filter (fun p => !(RPart.isLine2Of kwPC p))).filter
              (fun p => !(RPart.isLine2Of kwDP p)) ++
              [RPart.plain s1])) =
        stripGo (matchCleanPipeAt kwMP)
          (renderAll (RPart.plain s0 ::
            (mid.filter (fun p => !(RPart.isLine2Of kwPC p))).filter
              (fun p => !(RPart.isLine2Of kwDP p)) ++
              [RPart.plain s1])) 0 from rfl]
      rw [strip_renderAll kwMP (by simp [allKws]) (by decide)
        (by intro m hm; revert hm; cases m <;> decide)
        (by decide) (by decide) (by decide) (by decide) (by decide) _ hOk2]
      rw [filter_bounded _ hfmp s0 s1 _]
      have hOk3 : ∀ p ∈ (RPart.plain s0 ::
          ((mid.filter (fun p => !(RPart.isLine2Of kwPC p))).filter
            (fun p => !(RPart.isLine2Of kwDP p))).filter
              (fun p => !(RPart.isLine2Of kwMP p)) ++
            [RPart.plain s1]), PartOk p = true :=
        PartOk_bounded_filter _ hOk2
      rw [show jsReplaceAll (matchCleanPipeAt kwPP)
          (renderAll (RPart.plain s0 ::
            ((mid.filter (fun p => !(RPart.isLine2Of kwPC p))).filter
              (fun p => !(RPart.isLine2Of kwDP p))).filter
                (fun p => !(RPart.isLine2Of kwMP p)) ++
              [RPart.plain s1])) =
        renderAll (RPart.plain s0 ::
            ((mid.filter (fun p => !(RPart.isLine2Of kwPC p))).filter
              (fun p => !(RPart.isLine2Of kwDP p))).filter
                (fun p => !(RPart.isLine2Of kwMP p)) ++
              [RPart.plain s1]) from
        stripGo_noTouch_self _ kwPP (by decide)
          (matchCleanPipeAt_isSome kwPP)
          (noTouch_renderAll kwPP (by simp [allKws])
            (by intro m; cases m <;> decide) (by decide) (by decide) _
            hOk3)]
      rw [jsTrim_renderAll_bounded s0 s1 _ hs0 hs1 hh hl]

theorem ws_head_concrete {s : Str} {c0 : Char} (hs : s.head? = some c0)
    (h : isWsChar c0 = false) :
    ∀ c, s.head? = some c → isWsChar c = false := by
  intro c hc
  rw [hs] at hc
  cases hc
  exact h

theorem ws_last_concrete {s : Str} {c0 : Char} (hs : s.getLast? = some c0)
    (h : isWsChar c0 = false) :
    ∀ c, s.getLast? = some c → isWsChar c = false := by
  intro c hc
  rw [hs] at hc
  cases hc
  exact h

/-- Witness for c1_amended_strip_behavior: the Goal agent keeps a
GOAL_CONFIRMED line while dropping a PERSONA_CONFIRMED line; on the same
reply shape the Refinement agent also drops its REFINED_PERSONA line and
the Management agent its DELETE_PERSONA line. -/
theorem c1_amended_witness :
    (GoalAgent.processResponse
        (renderAll [RPart.plain "Note:".data,
          RPart.lineG3 " Run ".data " Run 5 km ".data " 2026-01-01".data,
          RPart.line2 Marker.personaConfirmed " Leader ".data
            " Lead with skill".data]) ctxEx).userResponse =
      "Note:GOAL_CONFIRMED: Run | Run 5 km | 2026-01-01".data ∧
    (RefinementAgent.processResponse
        (renderAll (RPart.plain "Hi.".data ::
          [RPart.line2 Marker.refinedPersona " Leader ".data
              " Lead with skill".data,
            RPart.line2 Marker.deletePersona " Old ".data
              " unused stuff".data] ++ [RPart.plain "Bye.".data])) 0
        ctxEx).userResponse =
      "Hi.DELETE_PERSONA: Old | unused stuff\nBye.".data ∧
    (ManagementAgent.processResponse
        (renderAll (RPart.plain "Hi.".data ::
          [RPart.line2 Marker.refinedPersona " Leader ".data
              " Lead with skill".data,
            RPart.line2 Marker.deletePersona " Old ".data
              " unused stuff".data] ++ [RPart.plain "Bye.".data])) 0
        ctxEx).userResponse =
      "Hi.REFINED_PERSONA: Leader | Lead with skill\nBye.".data := by
  refine ⟨?_, ?_, ?_⟩
  · rw [(c1_amended_strip_behavior.1 [RPart.plain "Note:".data,
      RPart.lineG3 " Run ".data " Run 5 km ".data " 2026-01-01".data,
      RPart.line2 Marker.personaConfirmed " Leader ".data
        " Lead with skill".data] ctxEx (by decide)).2.2]
    decide
  · rw [(c1_amended_strip_behavior.2 "Hi.".data "Bye.".data
      [RPart.line2 Marker.refinedPersona " Leader ".data
          " Lead with skill".data,
        RPart.line2 Marker.deletePersona " Old ".data
          " unused stuff".data] ctxEx 0 (by decide) (by decide) (by decide)
      (ws_head_concrete rfl (by decide))
      (ws_last_concrete rfl (by decide))).1]
    decide
  · rw [(c1_amended_strip_behavior.2 "Hi.".data "Bye.".data
      [RPart.line2 Marker.refinedPersona " Leader ".data
          " Lead with skill".data,
        RPart.line2 Marker.deletePersona " Old ".data
          " unused stuff".data] ctxEx 0 (by decide) (by decide) (by decide)
      (ws_head_concrete rfl (by decide))
      (ws_last_concrete rfl (by decide))).2]
    decide
